import Mathlib

/-!
# AvitoTool: token cache, metrics pipelines, reporting repository, cycle runner

A shallow embedding of `internal/client/avito/client.go`, of `UpdateGoogleSheet` and
`transpose` from `internal/metrics/repository_gs.go`, and of `ProcessAllShops` from
`internal/worker/worker.go`.

Modelling conventions.
* Instants (`time.Time`) and durations (`time.Duration`) are integers counting
  nanoseconds; `time.Duration` arithmetic wraps at 64 bits as in Go.
* A Go `map[K]V` is a function `K → Option V`; reading a missing key yields the zero
  value of `V`.
* Every outbound HTTP call is an oracle returning an `HttpReply`; the functions return,
  next to their Go result, the list of calls they issued.
* Logging is not modelled.
-/

namespace AvitoTool

/-! ## Time -/

/-! Instants (Go `time.Time`) and spans of time (Go `time.Duration`, an `int64`) are
integers, in nanoseconds. -/

/-- Go `time.Second`. -/
def Second : Int := 1000000000

/-- Go `time.Minute`. -/
def Minute : Int := 60 * Second

/-- Two's-complement wrap of an integer into the `int64` range. -/
def wrapInt64 (x : Int) : Int := (x + 2 ^ 63) % 2 ^ 64 - 2 ^ 63

/-- Go `time.Duration(n) * time.Second` for an `int` value `n`. -/
def secondsToDuration (n : Int) : Int := wrapInt64 (n * Second)

/-- Go `t.Add(d)`. -/
def Time.Add (t : Int) (d : Int) : Int := t + d

/-- Go `t.After(u)`: `t` is strictly later than `u`. -/
def Time.After (t u : Int) : Bool := decide (u < t)

/-! ## Errors and HTTP replies -/

/-- The errors returned by the client. -/
inductive Error where
  /-- Building the request failed (`http.NewRequest`). -/
  | request (msg : String)
  /-- The call failed in transport (`http.DefaultClient.Do`). -/
  | transport (msg : String)
  /-- The status code was not 200; carries the status text. -/
  | badStatus (status : String)
  /-- The body could not be decoded. -/
  | decode (msg : String)
  deriving DecidableEq, Repr

/-- What an HTTP call yields: a transport failure, or a response with its status code,
status text and body; `body = none` stands for a body that does not decode. -/
inductive HttpReply (α : Type) where
  | transportError (msg : String)
  | response (statusCode : Nat) (status : String) (body : Option α)
  deriving Repr

/-- Go `http.StatusOK`. -/
def StatusOK : Nat := 200

/-! ## Token cache (`client.go`, lines 13-88) -/

/-- Go `tokenCache`. -/
structure tokenCache where
  Token : String
  ExpiresAt : Int
  deriving DecidableEq, Repr

/-- Go `AvitoTokenResponse`. -/
structure AvitoTokenResponse where
  AccessToken : String
  ExpiresIn : Int
  TokenType : String
  deriving DecidableEq, Repr

/-- The field `tokens map[string]tokenCache` of `AvitoClient`, keyed by client id. -/
abbrev TokenMap := String → Option tokenCache

/-- Go `make(map[string]tokenCache)`. -/
def TokenMap.empty : TokenMap := fun _ => none

/-- Go `m[k] = v`. -/
def TokenMap.set (m : TokenMap) (k : String) (v : tokenCache) : TokenMap :=
  fun k' => if k' = k then some v else m k'

/-- The zero value of `tokenCache`. -/
def tokenCache.zero : tokenCache := { Token := "", ExpiresAt := 0 }

/-- Go `m[k]`: the stored entry, or the zero value when the key is missing. -/
def TokenMap.get (m : TokenMap) (k : String) : tokenCache :=
  match m k with
  | some tc => tc
  | none => tokenCache.zero

/-- The form posted to the auth endpoint. -/
structure TokenRequest where
  grant_type : String
  client_id : String
  client_secret : String
  deriving DecidableEq, Repr

/-- The world seen by the token cache: whether `http.NewRequest` accepts the configured
token URL, the auth endpoint, and the clock reading taken by `getToken` when it stores
a token. -/
structure AuthEnv where
  tokenUrlError : Option String
  authEndpoint : TokenRequest → HttpReply AvitoTokenResponse
  storeTime : Int

/-- The form built at lines 37-40 for a credential. -/
def tokenForm (cId cSec : String) : TokenRequest :=
  { grant_type := "client_credentials", client_id := cId, client_secret := cSec }

/-- Go `AvitoClient.getToken`: returns the error (or `none`), the token map after the
call, and the requests sent to the auth endpoint. -/
def getToken (env : AuthEnv) (tokens : TokenMap) (cId cSec : String) :
    Option Error × TokenMap × List TokenRequest :=
  let form := tokenForm cId cSec
  match env.tokenUrlError with
  | some msg => (some (Error.request msg), tokens, [])
  | none =>
    match env.authEndpoint form with
    | HttpReply.transportError msg => (some (Error.transport msg), tokens, [form])
    | HttpReply.response statusCode status body =>
      if statusCode ≠ StatusOK then (some (Error.badStatus status), tokens, [form])
      else
        match body with
        | none => (some (Error.decode "decode"), tokens, [form])
        | some tr =>
          (none,
           tokens.set cId
             { Token := tr.AccessToken,
               ExpiresAt := Time.Add env.storeTime (secondsToDuration tr.ExpiresIn) },
           [form])

/-- The refresh condition of `Token` (line 78):
`!ok || tc.Token == "" || time.Now().After(tc.ExpiresAt.Add(-5*time.Minute))`. -/
def needsRefresh (entry : Option tokenCache) (now : Int) : Bool :=
  match entry with
  | none => true
  | some tc => tc.Token == "" || Time.After now (Time.Add tc.ExpiresAt (-5 * Minute))

/-- The outcome of one call of `Token`. -/
structure TokenRun where
  /-- The returned `(string, error)` pair. -/
  result : Except Error String
  /-- The token map after the call. -/
  tokens : TokenMap
  /-- The exchange requests sent to the auth endpoint, in order. -/
  exchanges : List TokenRequest

/-- Go `AvitoClient.Token`; `now` is the clock reading of line 78. -/
def Token (env : AuthEnv) (now : Int) (tokens : TokenMap) (cId cSec : String) : TokenRun :=
  if needsRefresh (tokens cId) now then
    match getToken env tokens cId cSec with
    | (some err, tokens', sent) =>
      { result := Except.error err, tokens := tokens', exchanges := sent }
    | (none, tokens', sent) =>
      { result := Except.ok (TokenMap.get tokens' cId).Token,
        tokens := tokens', exchanges := sent }
  else
    { result := Except.ok (TokenMap.get tokens cId).Token,
      tokens := tokens, exchanges := [] }

/-! ## IEEE-754 binary64 (`float64`)

The value of a `float64` is a rational, an infinity or a NaN. Signed zeros are not
distinguished. `Float64.round` is rounding to nearest, ties to even, with a 53-bit
significand, gradual underflow below `2 ^ (-1022)` and overflow to infinity from
`2 ^ 1024` on. -/

/-- A `float64` value. -/
inductive Float64 where
  | finite (q : ℚ)
  | inf (negative : Bool)
  | nan
  deriving DecidableEq

/-- Rounding of a rational to the nearest integer, ties to the even one. -/
def roundHalfEven (q : ℚ) : Int :=
  let f := ⌊q⌋
  let r := q - f
  if r < 1 / 2 then f else if 1 / 2 < r then f + 1 else if f % 2 = 0 then f else f + 1

/-- The exponent of the unit in the last place of the binade of `q`. -/
def ulpExponent (q : ℚ) : Int := max (Int.log 2 |q| - 52) (-1074)

/-- Rounding of a rational to `float64`. -/
def Float64.round (q : ℚ) : Float64 :=
  if q = 0 then Float64.finite 0
  else
    let r : ℚ := (roundHalfEven (q / 2 ^ ulpExponent q) : ℚ) * 2 ^ ulpExponent q
    if (2 : ℚ) ^ (1024 : Int) ≤ |r| then Float64.inf (decide (q < 0)) else Float64.finite r

/-- Go `float64(n)` for an integer `n`. -/
def Float64.ofInt (n : Int) : Float64 := Float64.round n

/-- Go `x / y` on `float64`. -/
def Float64.div : Float64 → Float64 → Float64
  | Float64.nan, _ => Float64.nan
  | _, Float64.nan => Float64.nan
  | Float64.inf _, Float64.inf _ => Float64.nan
  | Float64.inf s, Float64.finite b => Float64.inf (xor s (decide (b < 0)))
  | Float64.finite _, Float64.inf _ => Float64.finite 0
  | Float64.finite a, Float64.finite b =>
    if b = 0 then
      if a = 0 then Float64.nan else Float64.inf (decide (a < 0))
    else Float64.round (a / b)

/-! ## Upstream data (`models.go`) -/

/-- Go `AvitoMetric`. -/
structure AvitoMetric where
  Slug : String
  Value : Int
  deriving DecidableEq, Repr

/-- Go `AvitoGrouping`; `GroupingType` is the field `Type`. -/
structure AvitoGrouping where
  ID : Int
  Metrics : List AvitoMetric
  GroupingType : String
  deriving DecidableEq, Repr

/-- Go `AvitoMetricsResult`. -/
structure AvitoMetricsResult where
  DataTotalCount : Int
  Groupings : List AvitoGrouping
  Timestamp : String
  deriving DecidableEq, Repr

/-- Go `AvitoMetricsResponse`. -/
structure AvitoMetricsResponse where
  Result : AvitoMetricsResult
  deriving DecidableEq, Repr

/-- Go `AvitoMetricsData`, the aggregate metrics of a shop. -/
structure AvitoMetricsData where
  Spending : Int
  Impressions : Int
  Contacts : Int
  Views : Int
  ImpressionsToViewsConversion : Int
  ViewsToContactsConversion : Int
  deriving DecidableEq, Repr

/-- Go `ItemMetrics`. -/
structure ItemMetrics where
  ID : Int
  Link : String
  Title : String
  Impressions : Int
  Views : Int
  Contacts : Int
  Spending : Int
  BidPenny : Int
  CostPerContactLastHour : Float64
  deriving DecidableEq

/-- An element of `items` in `GetMetricsForAllItems`. -/
structure Item where
  ID : Int
  Title : String
  URL : String
  deriving DecidableEq, Repr

/-- The decoded body `res` of one listing page. -/
structure ItemsPage where
  Page : Int
  PerPage : Int
  Resources : List Item
  deriving DecidableEq, Repr

/-- An element of `bidRes.Items`. -/
structure BidItem where
  ItemID : Int
  BidPenny : Int
  deriving DecidableEq, Repr

/-! ## Integer-valued maps -/

/-- A Go map with `int` values. -/
abbrev IntMap (K : Type) := K → Option Int

/-- Go `make(map[K]int)`. -/
def IntMap.empty {K : Type} : IntMap K := fun _ => none

/-- Go `m[k] = v`. -/
def IntMap.set {K : Type} [DecidableEq K] (m : IntMap K) (k : K) (v : Int) : IntMap K :=
  fun k' => if k' = k then some v else m k'

/-- Go `m[k]`: the stored value, or `0` when the key is missing. -/
def IntMap.get {K : Type} (m : IntMap K) (k : K) : Int :=
  match m k with
  | some v => v
  | none => 0

/-- The loop `for _, metric := range ms { metricsMap[metric.Slug] = metric.Value }`. -/
def addMetrics (metricsMap : IntMap String) : List AvitoMetric → IntMap String
  | [] => metricsMap
  | metric :: rest => addMetrics (IntMap.set metricsMap metric.Slug metric.Value) rest

/-! ## Aggregate metrics (`GetAvitoMetrics`, lines 90-146) -/

/-- The nested loops of lines 131-136 over `data.Result.Groupings`. -/
def flattenGroupings (metricsMap : IntMap String) : List AvitoGrouping → IntMap String
  | [] => metricsMap
  | grouping :: rest => flattenGroupings (addMetrics metricsMap grouping.Metrics) rest

/-- The record built at lines 138-145 from the flattened map. -/
def metricsData (metricsMap : IntMap String) : AvitoMetricsData :=
  { Spending := IntMap.get metricsMap "spending",
    Impressions := IntMap.get metricsMap "impressions",
    Contacts := IntMap.get metricsMap "contacts",
    Views := IntMap.get metricsMap "views",
    ImpressionsToViewsConversion := IntMap.get metricsMap "impressionsToViewsConversion",
    ViewsToContactsConversion := IntMap.get metricsMap "viewsToContactsConversion" }

/-- Go `AvitoClient.GetAvitoMetrics`. `metricsEndpoint` is the reply of the metrics
endpoint to the request of lines 96-113 (the configured metrics URL is taken to be
well-formed). Returns the Go result and the token run. -/
def GetAvitoMetrics (env : AuthEnv) (now : Int)
    (metricsEndpoint : HttpReply AvitoMetricsResponse)
    (tokens : TokenMap) (cId cSec : String) : Except Error AvitoMetricsData × TokenRun :=
  let run := Token env now tokens cId cSec
  match run.result with
  | Except.error err => (Except.error err, run)
  | Except.ok _ =>
    match metricsEndpoint with
    | HttpReply.transportError msg => (Except.error (Error.transport msg), run)
    | HttpReply.response statusCode status body =>
      if statusCode ≠ StatusOK then (Except.error (Error.badStatus status), run)
      else
        match body with
        | none => (Except.error (Error.decode "decode"), run)
        | some data =>
          (Except.ok (metricsData (flattenGroupings IntMap.empty data.Result.Groupings)), run)

/-! ## Per-item metrics (`GetMetricsForAllItems`, lines 148-343) -/

/-- Stage 1, the listing loop of lines 164-205. `fetchPage p` is the reply to the
request for page `p`; `items` and `requested` are the items collected and the pages
requested so far. The Go loop has no bound of its own, so the model takes `fuel`, the
number of pages it may request, and is `none` when that does not suffice. -/
def listItems (fetchPage : Nat → HttpReply ItemsPage) :
    Nat → Nat → List Item → List Nat → Option (Except Error (List Item) × List Nat)
  | 0, _, _, _ => none
  | fuel + 1, page, items, requested =>
    match fetchPage page with
    | HttpReply.transportError msg =>
      some (Except.error (Error.transport msg), requested ++ [page])
    | HttpReply.response statusCode status body =>
      if statusCode ≠ StatusOK then
        some (Except.error (Error.badStatus status), requested ++ [page])
      else
        match body with
        | none => some (Except.error (Error.decode "decode"), requested ++ [page])
        | some res =>
          if res.Resources.length < 100 then
            some (Except.ok (items ++ res.Resources), requested ++ [page])
          else
            listItems fetchPage fuel (page + 1) (items ++ res.Resources) (requested ++ [page])

/-- The loop of lines 292-294 storing the bids of one reply. -/
def addBids (idToBid : IntMap Int) : List BidItem → IntMap Int
  | [] => idToBid
  | it :: rest => addBids (IntMap.set idToBid it.ItemID it.BidPenny) rest

/-- Stage 3, the batch loop of lines 250-295, at loop index `i` with the bids collected
and the batches sent so far. `fetchBids ids` is the reply of the bid endpoint to the
batch `ids`. `fuel` bounds the number of loop tests. -/
def bidLoop (fetchBids : List Int → HttpReply (List BidItem)) (items : List Item) :
    Nat → Nat → IntMap Int → List (List Int) →
      Option (Except Error (IntMap Int) × List (List Int))
  | 0, _, _, _ => none
  | fuel + 1, i, idToBid, sent =>
    if i < items.length then
      let stop := if i + 200 > items.length then items.length else i + 200
      let batchIDs := (((items.take stop).drop i).map fun it => it.ID)
      match fetchBids batchIDs with
      | HttpReply.transportError msg =>
        some (Except.error (Error.transport msg), sent ++ [batchIDs])
      | HttpReply.response statusCode status body =>
        if statusCode ≠ StatusOK then
          some (Except.error (Error.badStatus status), sent ++ [batchIDs])
        else
          match body with
          | none => some (Except.error (Error.decode "decode"), sent ++ [batchIDs])
          | some bidRes =>
            bidLoop fetchBids items fuel (i + 200) (addBids idToBid bidRes) (sent ++ [batchIDs])
    else some (Except.ok idToBid, sent)

/-- Stage 3 from its start: `i = 0`, an empty bid map, and one loop test more than
there are items. -/
def bidStage (fetchBids : List Int → HttpReply (List BidItem)) (items : List Item) :
    Option (Except Error (IntMap Int) × List (List Int)) :=
  bidLoop fetchBids items (items.length + 1) 0 IntMap.empty []

/-- The zero value of `AvitoGrouping` (`var mAvito AvitoGrouping`). -/
def AvitoGrouping.zero : AvitoGrouping := { ID := 0, Metrics := [], GroupingType := "" }

/-- The scan of lines 301-309: the first grouping whose id is the item id, with
`found`; the zero grouping when there is none. -/
def findGrouping : List AvitoGrouping → Int → AvitoGrouping × Bool
  | [], _ => (AvitoGrouping.zero, false)
  | g :: rest, id => if g.ID = id then (g, true) else findGrouping rest id

/-- Lines 322-325: the cost per contact. -/
def costPerContact (spending contacts : Int) : Float64 :=
  if contacts > 0 then Float64.div (Float64.ofInt spending) (Float64.ofInt contacts)
  else Float64.finite 0

/-- The body of the join loop (lines 301-337) for one listed item. -/
def joinItem (groupings : List AvitoGrouping) (idToBid : IntMap Int) (it : Item) :
    ItemMetrics :=
  let mAvito := (findGrouping groupings it.ID).1
  let metricsMap := addMetrics IntMap.empty mAvito.Metrics
  let contacts := IntMap.get metricsMap "contacts"
  let spending := IntMap.get metricsMap "spending"
  let cpc := costPerContact spending contacts
  { ID := it.ID,
    Link := it.URL,
    Title := it.Title,
    Impressions := IntMap.get metricsMap "impressions",
    Views := IntMap.get metricsMap "views",
    Contacts := contacts,
    Spending := spending,
    BidPenny := IntMap.get idToBid it.ID,
    CostPerContactLastHour := cpc }

/-- Stage 4, the join loop of lines 299-339, appending to `itemMetrics`. -/
def joinLoop (groupings : List AvitoGrouping) (idToBid : IntMap Int) :
    List ItemMetrics → List Item → List ItemMetrics
  | itemMetrics, [] => itemMetrics
  | itemMetrics, it :: rest =>
    joinLoop groupings idToBid (itemMetrics ++ [joinItem groupings idToBid it]) rest

/-- Stage 4 from its start (`itemMetrics := []ItemMetrics{}`). -/
def joinItems (groupings : List AvitoGrouping) (idToBid : IntMap Int) (items : List Item) :
    List ItemMetrics :=
  joinLoop groupings idToBid [] items

/-- The upstream seen by one call of `GetMetricsForAllItems`. -/
structure ItemsEnv where
  auth : AuthEnv
  now : Int
  fetchPage : Nat → HttpReply ItemsPage
  itemMetricsEndpoint : HttpReply AvitoMetricsResponse
  fetchBids : List Int → HttpReply (List BidItem)

/-- How a call of `GetMetricsForAllItems` ends. -/
inductive ItemsOutcome where
  /-- The slice expression `token[:10]` of line 156 is out of range. -/
  | panicked
  /-- The call returned `(nil, err)`. -/
  | failed (err : Error)
  /-- The call returned `(itemMetrics, nil)`; `[]` also stands for the `nil` slice. -/
  | returned (itemMetrics : List ItemMetrics)

/-- The outcome of one call of `GetMetricsForAllItems` with what it sent upstream. -/
structure ItemsRun where
  outcome : ItemsOutcome
  tokenRun : TokenRun
  pagesRequested : List Nat
  metricsCalls : Nat
  batchesSent : List (List Int)

/-- Go `AvitoClient.GetMetricsForAllItems`; `fuel` bounds the listing loop. -/
def GetMetricsForAllItems (env : ItemsEnv) (fuel : Nat) (tokens : TokenMap)
    (cId cSec : String) : Option ItemsRun :=
  let run := Token env.auth env.now tokens cId cSec
  match run.result with
  | Except.error err => some ⟨ItemsOutcome.failed err, run, [], 0, []⟩
  | Except.ok token =>
    if token.utf8ByteSize < 10 then some ⟨ItemsOutcome.panicked, run, [], 0, []⟩
    else
      match listItems env.fetchPage fuel 1 [] [] with
      | none => none
      | some (Except.error err, pages) => some ⟨ItemsOutcome.failed err, run, pages, 0, []⟩
      | some (Except.ok items, pages) =>
        if items.length = 0 then some ⟨ItemsOutcome.returned [], run, pages, 0, []⟩
        else
          match env.itemMetricsEndpoint with
          | HttpReply.transportError msg =>
            some ⟨ItemsOutcome.failed (Error.transport msg), run, pages, 1, []⟩
          | HttpReply.response statusCode status body =>
            if statusCode ≠ StatusOK then
              some ⟨ItemsOutcome.failed (Error.badStatus status), run, pages, 1, []⟩
            else
              match body with
              | none => some ⟨ItemsOutcome.failed (Error.decode "decode"), run, pages, 1, []⟩
              | some metricsRes =>
                match bidStage env.fetchBids items with
                | none => none
                | some (Except.error err, sent) =>
                  some ⟨ItemsOutcome.failed err, run, pages, 1, sent⟩
                | some (Except.ok idToBid, sent) =>
                  some ⟨ItemsOutcome.returned
                          (joinItems metricsRes.Result.Groupings idToBid items),
                        run, pages, 1, sent⟩

/-! ## Snapshot transpose (`repository_gs.go`, lines 87-106) -/

/-- A value of a sheet cell (Go `interface{}`). -/
inductive Cell where
  | num (n : Int)
  | str (s : String)
  deriving DecidableEq, Repr

/-- Go `transpose`. -/
def transpose (values : List (List Cell)) : List (List Cell) :=
  match values with
  | [] => []
  | first :: _ =>
    let m := first.length
    (List.range m).map fun i =>
      values.map fun row => if h : i < row.length then row[i] else Cell.str ""

/-! ## Predicates and tables used in the statements -/

/-- An exchange fails: the request cannot be built, the transport fails, the status is
not 200, or the body does not decode. -/
def exchangeFails (env : AuthEnv) (cId cSec : String) : Bool :=
  match env.tokenUrlError with
  | some _ => true
  | none =>
    match env.authEndpoint (tokenForm cId cSec) with
    | HttpReply.transportError _ => true
    | HttpReply.response statusCode _ body => statusCode != StatusOK || body.isNone

/-- A reply is a success: status 200 and a body that decodes. -/
def HttpReply.succeeded {α : Type} : HttpReply α → Bool
  | HttpReply.transportError _ => false
  | HttpReply.response statusCode _ body => statusCode == StatusOK && body.isSome

/-- The slug read into each field of `AvitoMetricsData` at lines 139-144. -/
def aggregateFields : List (String × (AvitoMetricsData → Int)) :=
  [("spending", AvitoMetricsData.Spending),
   ("impressions", AvitoMetricsData.Impressions),
   ("contacts", AvitoMetricsData.Contacts),
   ("views", AvitoMetricsData.Views),
   ("impressionsToViewsConversion", AvitoMetricsData.ImpressionsToViewsConversion),
   ("viewsToContactsConversion", AvitoMetricsData.ViewsToContactsConversion)]

/-! ## Concrete inputs -/

/-- An auth environment whose endpoint always gives the same reply. -/
def constAuth (reply : HttpReply AvitoTokenResponse) (storeTime : Int) : AuthEnv :=
  { tokenUrlError := none, authEndpoint := fun _ => reply, storeTime := storeTime }

/-- An auth endpoint granting the token `fresh` for `expiresIn` seconds, at time 0. -/
def grantAuth (expiresIn : Int) : AuthEnv :=
  constAuth (HttpReply.response 200 "200 OK" (some ⟨"fresh", expiresIn, "Bearer"⟩)) 0

/-- An auth endpoint that cannot be reached. -/
def downAuth : AuthEnv := constAuth (HttpReply.transportError "connection refused") 0

/-- A token map with one entry. -/
def oneToken (cId : String) (tc : tokenCache) : TokenMap := TokenMap.set TokenMap.empty cId tc

/-- A cache holding a 16-byte token for `shop` that expires an hour after time 0. -/
def hourToken : TokenMap := oneToken "shop" ⟨"0123456789abcdef", 60 * Minute⟩

/-- The items with ids `0, ..., n - 1`. -/
def numberedItems (n : Nat) : List Item :=
  (List.range n).map fun (i : Nat) => { ID := Int.ofNat i, Title := "", URL := "" }

/-- A listing of two pages: a full first page and three items on the second. -/
def twoPages (p : Nat) : ItemsPage :=
  { Page := Int.ofNat p, PerPage := 100,
    Resources := if p = 1 then numberedItems 100 else numberedItems 3 }

/-- The upstream serving `twoPages`. -/
def twoPageListing (p : Nat) : HttpReply ItemsPage :=
  HttpReply.response 200 "200 OK" (some (twoPages p))

/-- A bid endpoint that answers every batch with an empty list of bids. -/
def noBids (_ids : List Int) : HttpReply (List BidItem) :=
  HttpReply.response 200 "200 OK" (some [])

/-- The listing `[{id:1},{id:2}]`. -/
def twoItems : List Item :=
  [{ ID := 1, Title := "first", URL := "https://example.org/1" },
   { ID := 2, Title := "second", URL := "https://example.org/2" }]

/-- Grouped metrics for item 1 only: `contacts = 4`, `spending = 40`. -/
def groupingsForOne : List AvitoGrouping :=
  [{ ID := 1, Metrics := [⟨"contacts", 4⟩, ⟨"spending", 40⟩], GroupingType := "item" }]

/-- The bids `{1: 100}`. -/
def bidsForOne : IntMap Int := addBids IntMap.empty [{ ItemID := 1, BidPenny := 100 }]

/-- Grouped metrics for item 1 with `contacts = 3`, `spending = 1`. -/
def groupingsOneThird : List AvitoGrouping :=
  [{ ID := 1, Metrics := [⟨"contacts", 3⟩, ⟨"spending", 1⟩], GroupingType := "item" }]

/-- An upstream with the two items on one page, metrics and a bid for item 1 only. -/
def twoItemsEnv : ItemsEnv :=
  { auth := downAuth,
    now := 0,
    fetchPage := fun _ => HttpReply.response 200 "200 OK" (some ⟨1, 100, twoItems⟩),
    itemMetricsEndpoint :=
      HttpReply.response 200 "200 OK" (some ⟨⟨1, groupingsForOne, ""⟩⟩),
    fetchBids := fun _ => HttpReply.response 200 "200 OK" (some [⟨1, 100⟩]) }

/-- The totals grouping with metrics `[{spending,500},{impressions,10}]`. -/
def totalsGrouping : AvitoGrouping :=
  { ID := 0, Metrics := [⟨"spending", 500⟩, ⟨"impressions", 10⟩], GroupingType := "totals" }

/-- The decoded totals response holding `totalsGrouping` alone. -/
def totalsResponse : AvitoMetricsResponse :=
  { Result := { DataTotalCount := 1, Groupings := [totalsGrouping], Timestamp := "" } }

/-- The reply of the metrics endpoint carrying `totalsResponse`. -/
def totalsReply : HttpReply AvitoMetricsResponse :=
  HttpReply.response 200 "200 OK" (some totalsResponse)

/-! ## Configuration (`config/models.go`) -/

/-- Go `config.SnapshotTime`. -/
structure SnapshotTime where
  Time : String
  Range : String
  deriving DecidableEq, Repr

/-- Go `config.Shop`. -/
structure Shop where
  Name : String
  ClientId : String
  ClientSecret : String
  UserId : Int
  SheetRange : String
  Snapshots : List SnapshotTime
  deriving DecidableEq, Repr

/-- Go `config.Url`. -/
structure Url where
  TokenUrl : String
  MetricsUrl : String
  deriving DecidableEq, Repr

/-- Go `config.Config`. -/
structure Config where
  Shops : List Shop
  Urls : Url
  SheetId : String
  deriving DecidableEq, Repr

/-! ## Reporting repository (`repository_gs.go`, lines 27-54) and sink -/

/-- The errors of the reporting path. -/
inductive SinkError where
  /-- Line 36: `sheet range not found for shop %s`. -/
  | rangeNotFound (shopName : String)
  /-- Line 49: `unable to write data to sheet: %w`, wrapping the error of the sink. -/
  | unableToWrite (cause : String)
  deriving DecidableEq, Repr

/-- A single-range update handed to the sink: the range and the grid of values. -/
structure SinkCall where
  range : String
  values : List (List Cell)
  deriving DecidableEq, Repr

/-- Go `google.Client.UpdateSheet` (`sheets.go`): `sheetsApi` is the outcome of the
`Values.Update(...).Do()` call, `none` for success; its error is wrapped. -/
def Client.UpdateSheet (sheetsApi : String → List (List Cell) → Option String)
    (shopRange : String) (values : List (List Cell)) : Option String :=
  match sheetsApi shopRange values with
  | some err => some ("unable to update sheet: " ++ err)
  | none => none

/-- The loop of lines 28-34: the sheet range of the first shop with the name, or the
zero value `""` of `writeRange` when there is none. -/
def findSheetRange : List Shop → String → String
  | [], _ => ""
  | shop :: rest, shopName =>
    if shop.Name = shopName then shop.SheetRange else findSheetRange rest shopName

/-- The block of values built at lines 40-45; `/` on Go `int` truncates toward zero. -/
def totalsBlock (data : AvitoMetricsData) : List (List Cell) :=
  [[Cell.num (Int.tdiv data.Spending 100)],
   [Cell.num data.Impressions],
   [Cell.num data.Views],
   [Cell.num data.Contacts]]

/-- Go `RepositoryMetrics.UpdateGoogleSheet`: returns the error (or `none`) and the
calls made on the sink. -/
def UpdateGoogleSheet (cfg : Config) (sheetsApi : String → List (List Cell) → Option String)
    (shopName : String) (data : AvitoMetricsData) : Option SinkError × List SinkCall :=
  let writeRange := findSheetRange cfg.Shops shopName
  if writeRange = "" then (some (SinkError.rangeNotFound shopName), [])
  else
    let values := totalsBlock data
    match Client.UpdateSheet sheetsApi writeRange values with
    | some err => (some (SinkError.unableToWrite err), [⟨writeRange, values⟩])
    | none => (none, [⟨writeRange, values⟩])

/-- Go `ServiceMetrics.UpdateSheet` (`service.go`), over the repository above. -/
def UpdateSheet (cfg : Config) (sheetsApi : String → List (List Cell) → Option String)
    (shopName : String) (metrics : AvitoMetricsData) : Option SinkError × List SinkCall :=
  match UpdateGoogleSheet cfg sheetsApi shopName metrics with
  | (some err, calls) => (some err, calls)
  | (none, calls) => (none, calls)

/-! ## Cycle runner (`worker.go`, lines 33-53) -/

/-- The collaborators of Go `Worker`, as transformers of the state `σ` of the world:
`avito.GetAvitoMetrics`, `service.UpdateSheet` and `time.Sleep`. -/
structure Worker (σ : Type) where
  GetAvitoMetrics : Int → String → String → σ → Except Error AvitoMetricsData × σ
  UpdateSheet : String → AvitoMetricsData → σ → Option SinkError × σ
  Sleep : Int → σ → σ

/-- What one cycle does, in order. -/
inductive Event where
  /-- The aggregate-metrics fetch for a shop (line 37), with what it returned. -/
  | fetch (shop : Shop) (result : Except Error AvitoMetricsData)
  /-- The sheet update for a shop name and metrics (line 45), with its error. -/
  | write (shopName : String) (metrics : AvitoMetricsData) (err : Option SinkError)
  /-- A pause (line 51). -/
  | sleep (d : Int)

/-- Go `Worker.ProcessAllShops`, over the shops of the configuration from the state `s`:
the events of the cycle and the state after it. -/
def ProcessAllShops {σ : Type} (w : Worker σ) : List Shop → σ → List Event × σ
  | [], s => ([], s)
  | shop :: rest, s =>
    match w.GetAvitoMetrics shop.UserId shop.ClientId shop.ClientSecret s with
    | (Except.error err, s1) =>
      let tail := ProcessAllShops w rest s1
      (Event.fetch shop (Except.error err) :: tail.1, tail.2)
    | (Except.ok metrics, s1) =>
      let written := w.UpdateSheet shop.Name metrics s1
      let s3 := w.Sleep (65 * Second) written.2
      let tail := ProcessAllShops w rest s3
      (Event.fetch shop (Except.ok metrics) :: Event.write shop.Name metrics written.1 ::
        Event.sleep (65 * Second) :: tail.1, tail.2)

/-- The state threaded through a cycle run against the modelled client and
repository: the token cache, the clock, and the calls received by the sink. -/
structure World where
  tokens : TokenMap
  clock : Int
  sinkCalls : List SinkCall

/-- The upstream of a cycle: the auth endpoint, the metrics endpoint by user id, and
the sheets API. -/
structure Upstream where
  tokenUrlError : Option String
  authEndpoint : TokenRequest → HttpReply AvitoTokenResponse
  metricsEndpoint : Int → HttpReply AvitoMetricsResponse
  sheetsApi : String → List (List Cell) → Option String

/-- The worker wired as in `main.go`: `GetAvitoMetrics` on the token cache of the
world, `UpdateSheet` on the configuration, and a sleep that advances the clock. -/
def liveWorker (cfg : Config) (up : Upstream) : Worker World :=
  { GetAvitoMetrics := fun uId cId cSec world =>
      let r := GetAvitoMetrics
        { tokenUrlError := up.tokenUrlError, authEndpoint := up.authEndpoint,
          storeTime := world.clock }
        world.clock (up.metricsEndpoint uId) world.tokens cId cSec
      (r.1, { world with tokens := r.2.tokens }),
    UpdateSheet := fun shopName metrics world =>
      let r := UpdateSheet cfg up.sheetsApi shopName metrics
      (r.1, { world with sinkCalls := world.sinkCalls ++ r.2 }),
    Sleep := fun d world => { world with clock := world.clock + d } }

/-! ## Projections of a cycle trace -/

/-- The shops fetched, in order. -/
def fetchedShops : List Event → List Shop
  | [] => []
  | Event.fetch shop _ :: rest => shop :: fetchedShops rest
  | _ :: rest => fetchedShops rest

/-- The shop names and metrics of the fetches that succeeded, in order. -/
def successfulFetches : List Event → List (String × AvitoMetricsData)
  | [] => []
  | Event.fetch shop (Except.ok metrics) :: rest =>
    (shop.Name, metrics) :: successfulFetches rest
  | _ :: rest => successfulFetches rest

/-- The shop names and metrics of the writes attempted, in order. -/
def writesAttempted : List Event → List (String × AvitoMetricsData)
  | [] => []
  | Event.write shopName metrics _ :: rest => (shopName, metrics) :: writesAttempted rest
  | _ :: rest => writesAttempted rest

/-- The durations of the pauses, in order. -/
def pauses : List Event → List Int
  | [] => []
  | Event.sleep d :: rest => d :: pauses rest
  | _ :: rest => pauses rest

/-- Every fetch of the trace succeeded. -/
def allFetchesSucceeded : List Event → Bool
  | [] => true
  | Event.fetch _ (Except.error _) :: _ => false
  | _ :: rest => allFetchesSucceeded rest

/-! ## Concrete inputs for the cycle -/

/-- Shop `A`, reporting to `Sheet1!B2:B5`. -/
def shopA : Shop :=
  { Name := "A", ClientId := "a-id", ClientSecret := "a-secret", UserId := 1,
    SheetRange := "Sheet1!B2:B5", Snapshots := [] }

/-- Shop `B`, reporting to `Sheet1!C2:C5`. -/
def shopB : Shop :=
  { Name := "B", ClientId := "b-id", ClientSecret := "b-secret", UserId := 2,
    SheetRange := "Sheet1!C2:C5", Snapshots := [] }

/-- A shop named `C` whose sheet range is empty. -/
def shopNoRange : Shop :=
  { Name := "C", ClientId := "c-id", ClientSecret := "c-secret", UserId := 3,
    SheetRange := "", Snapshots := [] }

/-- A configuration with the given shops. -/
def configOf (shops : List Shop) : Config :=
  { Shops := shops, Urls := { TokenUrl := "https://auth", MetricsUrl := "https://stats/" },
    SheetId := "sheet" }

/-- An upstream granting tokens for an hour and accepting every sheet update, whose
metrics endpoint answers user 1 with `totalsResponse` and everyone else with a 500. -/
def upstreamBDown : Upstream :=
  { tokenUrlError := none,
    authEndpoint := fun _ =>
      HttpReply.response 200 "200 OK" (some ⟨"fresh", 3600, "Bearer"⟩),
    metricsEndpoint := fun uId =>
      if uId = 1 then totalsReply
      else HttpReply.response 500 "500 Internal Server Error" none,
    sheetsApi := fun _ _ => none }

/-- An upstream as `upstreamBDown`, whose metrics endpoint answers user 2 with
`totalsResponse` and everyone else with a 500. -/
def upstreamADown : Upstream :=
  { tokenUrlError := none,
    authEndpoint := fun _ =>
      HttpReply.response 200 "200 OK" (some ⟨"fresh", 3600, "Bearer"⟩),
    metricsEndpoint := fun uId =>
      if uId = 2 then totalsReply
      else HttpReply.response 500 "500 Internal Server Error" none,
    sheetsApi := fun _ _ => none }

/-- The world at time 0 with an empty token cache and an untouched sink. -/
def freshWorld : World := { tokens := TokenMap.empty, clock := 0, sinkCalls := [] }

/-- The aggregate metrics read from `totalsResponse`. -/
def totalsData : AvitoMetricsData :=
  { Spending := 500, Impressions := 10, Contacts := 0, Views := 0,
    ImpressionsToViewsConversion := 0, ViewsToContactsConversion := 0 }

/-- The write a cycle owes to a shop under a fetch oracle: the shop name with the
fetched metrics when the fetch succeeds, nothing when it fails. -/
def writeOfFetch (fetch : Shop → Except Error AvitoMetricsData) (shop : Shop) :
    Option (String × AvitoMetricsData) :=
  match fetch shop with
  | Except.ok metrics => some (shop.Name, metrics)
  | Except.error _ => none

/-- A second shop named `A`, reporting to `Sheet1!D2:D5`. -/
def shopATwin : Shop :=
  { Name := "A", ClientId := "a2-id", ClientSecret := "a2-secret", UserId := 4,
    SheetRange := "Sheet1!D2:D5", Snapshots := [] }

/-- A sheets API that accepts every update. -/
def sheetsUp (_r : String) (_values : List (List Cell)) : Option String := none

/-- An upstream granting tokens for an hour, answering every metrics call with
`totalsResponse` and accepting every sheet update. -/
def upstreamAllUp : Upstream :=
  { tokenUrlError := none,
    authEndpoint := fun _ =>
      HttpReply.response 200 "200 OK" (some ⟨"fresh", 3600, "Bearer"⟩),
    metricsEndpoint := fun _ => totalsReply,
    sheetsApi := sheetsUp }

/-! # Theorems -/

/-! ## Token cache -/

theorem wrapInt64_of_range (x : Int) (h1 : -(2 ^ 63) ≤ x) (h2 : x < 2 ^ 63) :
    wrapInt64 x = x := by
  unfold wrapInt64
  omega

theorem secondsToDuration_of_range (n : Int) (h1 : 0 ≤ n) (h2 : n ≤ 9223372036) :
    secondsToDuration n = n * Second := by
  unfold secondsToDuration Second
  apply wrapInt64_of_range <;> omega

theorem TokenMap.set_self (m : TokenMap) (k : String) (v : tokenCache) :
    TokenMap.set m k v k = some v := by
  simp [TokenMap.set]

theorem TokenMap.get_set_self (m : TokenMap) (k : String) (v : tokenCache) :
    TokenMap.get (TokenMap.set m k v) k = v := by
  simp [TokenMap.get, TokenMap.set]

/-- No refresh is needed exactly when the entry exists, its token is not empty and the
current time is not after the expiry less five minutes. -/
theorem needsRefresh_false_iff (entry : Option tokenCache) (now : Int) :
    needsRefresh entry now = false ↔
      ∃ tc, entry = some tc ∧ tc.Token ≠ "" ∧ now + 5 * Minute ≤ tc.ExpiresAt := by
  cases entry with
  | none => simp [needsRefresh]
  | some tc =>
    simp only [needsRefresh, Time.After, Time.Add, Bool.or_eq_false_iff, beq_eq_false_iff_ne,
      decide_eq_false_iff_not, Option.some.injEq, exists_eq_left', not_lt, ne_eq]
    constructor
    · rintro ⟨h1, h2⟩
      exact ⟨h1, by omega⟩
    · rintro ⟨h1, h2⟩
      exact ⟨h1, by omega⟩

/-- Without a refresh `Token` serves the cached entry and sends nothing. -/
theorem Token_cached (env : AuthEnv) (now : Int) (tokens : TokenMap) (cId cSec : String)
    (h : needsRefresh (tokens cId) now = false) :
    Token env now tokens cId cSec =
      { result := Except.ok (TokenMap.get tokens cId).Token,
        tokens := tokens, exchanges := [] } := by
  simp [Token, h]

/-- When a refresh is needed and the exchange succeeds, `Token` stores and returns the
new token. -/
theorem Token_refreshed (env : AuthEnv) (now : Int) (tokens : TokenMap) (cId cSec : String)
    (status : String) (tr : AvitoTokenResponse)
    (hneed : needsRefresh (tokens cId) now = true)
    (hurl : env.tokenUrlError = none)
    (hreply : env.authEndpoint (tokenForm cId cSec) =
      HttpReply.response StatusOK status (some tr)) :
    Token env now tokens cId cSec =
      { result := Except.ok tr.AccessToken,
        tokens := TokenMap.set tokens cId
          { Token := tr.AccessToken,
            ExpiresAt := env.storeTime + secondsToDuration tr.ExpiresIn },
        exchanges := [tokenForm cId cSec] } := by
  simp [Token, hneed, getToken, hurl, hreply, TokenMap.get_set_self, Time.Add]

/-- When a refresh is needed and the exchange fails, `Token` returns an error and
leaves the map as it was. -/
theorem Token_refresh_failed (env : AuthEnv) (now : Int) (tokens : TokenMap)
    (cId cSec : String)
    (hneed : needsRefresh (tokens cId) now = true)
    (hfail : exchangeFails env cId cSec = true) :
    ∃ err, (Token env now tokens cId cSec).result = Except.error err ∧
      (Token env now tokens cId cSec).tokens = tokens ∧
      (Token env now tokens cId cSec).exchanges =
        (if env.tokenUrlError = none then [tokenForm cId cSec] else []) := by
  unfold exchangeFails at hfail
  cases hurl : env.tokenUrlError with
  | some msg => simp [Token, hneed, getToken, hurl]
  | none =>
    rw [hurl] at hfail
    cases hreply : env.authEndpoint (tokenForm cId cSec) with
    | transportError msg => simp [Token, hneed, getToken, hurl, hreply]
    | response statusCode status body =>
      rw [hreply] at hfail
      by_cases hs : statusCode = StatusOK
      · cases body with
        | none => simp [Token, hneed, getToken, hurl, hreply, hs]
        | some tr => simp [hs] at hfail
      · simp [Token, hneed, getToken, hurl, hreply, hs]

/-- An exchange that does not fail is a 200 reply with a decoded body. -/
theorem exchangeFails_false (env : AuthEnv) (cId cSec : String)
    (h : exchangeFails env cId cSec = false) :
    env.tokenUrlError = none ∧ ∃ status tr,
      env.authEndpoint (tokenForm cId cSec) = HttpReply.response StatusOK status (some tr) := by
  unfold exchangeFails at h
  cases hurl : env.tokenUrlError with
  | some msg => simp [hurl] at h
  | none =>
    rw [hurl] at h
    cases hreply : env.authEndpoint (tokenForm cId cSec) with
    | transportError msg => simp [hreply] at h
    | response statusCode status body =>
      rw [hreply] at h
      cases body with
      | none => simp at h
      | some tr =>
        simp at h
        exact ⟨rfl, status, tr, by rw [h]⟩

/-- Claim C1, as the code has it: a token is never returned within 5 minutes of its
expiry. The claim fails on three counts. A token that was just obtained is returned
whatever lifetime the endpoint reported: with `expires_in = 60` the entry expires one
minute after the call. A cached token that expires exactly 5 minutes after the current
time is still served, so "more than 5 minutes" is not guaranteed. And the lifetime is
computed as a 64-bit duration in nanoseconds: with `expires_in = 9223372037` the product
wraps and the entry returned expires long before the call. -/
theorem Token_freshness_counterexample :
    ((Token (grantAuth 60) 0 TokenMap.empty "shop" "secret").result = Except.ok "fresh" ∧
      (Token (grantAuth 60) 0 TokenMap.empty "shop" "secret").tokens "shop" =
        some { Token := "fresh", ExpiresAt := 60 * Second } ∧
      ¬ (0 + 5 * Minute < 60 * Second)) ∧
    ((Token downAuth 0 (oneToken "shop" ⟨"old", 5 * Minute⟩) "shop" "secret").result =
        Except.ok "old" ∧
      (Token downAuth 0 (oneToken "shop" ⟨"old", 5 * Minute⟩) "shop" "secret").tokens "shop" =
        some { Token := "old", ExpiresAt := 5 * Minute } ∧
      ¬ (0 + 5 * Minute < 5 * Minute)) ∧
    ((Token (grantAuth 9223372037) 0 TokenMap.empty "shop" "secret").result =
        Except.ok "fresh" ∧
      (Token (grantAuth 9223372037) 0 TokenMap.empty "shop" "secret").tokens "shop" =
        some { Token := "fresh", ExpiresAt := -9223372036709551616 } ∧
      ¬ (0 + 5 * Minute < -9223372036709551616)) :=
  ⟨⟨rfl, by decide, by decide⟩, ⟨rfl, by decide, by decide⟩, ⟨rfl, by decide, by decide⟩⟩

/-- Claim C1, amended: whenever `Token` returns a token, the cache entry of that client
id holds the returned token, and either (a) the token was served from the cache without
an exchange and expires at least 5 minutes after the current time, or (b) it was
obtained by exactly one exchange and expires at the time of storing plus the duration
`time.Duration(expires_in) * time.Second`, a 64-bit count of nanoseconds: that is
`expires_in` seconds when `0 <= expires_in <= 9223372036`. In case (b) the entry expires
more than 5 minutes after the current time when `300 < expires_in <= 9223372036` and
the time of storing is not before the current time. -/
theorem Token_freshness (env : AuthEnv) (now : Int) (tokens : TokenMap)
    (cId cSec tok : String)
    (h : (Token env now tokens cId cSec).result = Except.ok tok) :
    ∃ entry, (Token env now tokens cId cSec).tokens cId = some entry ∧ entry.Token = tok ∧
      (((Token env now tokens cId cSec).exchanges = [] ∧ tokens cId = some entry ∧
          now + 5 * Minute ≤ entry.ExpiresAt) ∨
        (∃ status tr,
          env.authEndpoint (tokenForm cId cSec) = HttpReply.response StatusOK status (some tr) ∧
          (Token env now tokens cId cSec).exchanges = [tokenForm cId cSec] ∧
          entry.ExpiresAt = env.storeTime + secondsToDuration tr.ExpiresIn ∧
          (0 ≤ tr.ExpiresIn → tr.ExpiresIn ≤ 9223372036 →
            entry.ExpiresAt = env.storeTime + tr.ExpiresIn * Second) ∧
          (300 < tr.ExpiresIn → tr.ExpiresIn ≤ 9223372036 → now ≤ env.storeTime →
            now + 5 * Minute < entry.ExpiresAt))) := by
  cases hneed : needsRefresh (tokens cId) now with
  | false =>
    obtain ⟨tc, htc, hne, hexp⟩ := (needsRefresh_false_iff _ _).1 hneed
    rw [Token_cached env now tokens cId cSec hneed] at h ⊢
    simp only [TokenMap.get, htc, Except.ok.injEq] at h
    exact ⟨tc, htc, h, Or.inl ⟨rfl, htc, hexp⟩⟩
  | true =>
    cases hfail : exchangeFails env cId cSec with
    | true =>
      obtain ⟨err, herr, -, -⟩ := Token_refresh_failed env now tokens cId cSec hneed hfail
      rw [herr] at h
      cases h
    | false =>
      obtain ⟨hurl, status, tr, hreply⟩ := exchangeFails_false env cId cSec hfail
      rw [Token_refreshed env now tokens cId cSec status tr hneed hurl hreply] at h ⊢
      simp only [Except.ok.injEq] at h
      refine ⟨_, TokenMap.set_self _ _ _, h, Or.inr ⟨status, tr, hreply, rfl, rfl, ?_, ?_⟩⟩
      · intro h1 h2
        rw [secondsToDuration_of_range _ h1 h2]
      · intro h1 h2 h3
        rw [secondsToDuration_of_range _ (by omega) h2]
        simp only [Minute, Second]
        omega

/-- Claim C1, amended, at an empty cache and an endpoint granting one hour. -/
theorem Token_freshness_witness :
    (Token (grantAuth 3600) 0 TokenMap.empty "shop" "secret").result = Except.ok "fresh" ∧
    ∃ entry, (Token (grantAuth 3600) 0 TokenMap.empty "shop" "secret").tokens "shop" =
        some entry ∧
      entry.Token = "fresh" ∧
      (((Token (grantAuth 3600) 0 TokenMap.empty "shop" "secret").exchanges = [] ∧
          TokenMap.empty "shop" = some entry ∧ 0 + 5 * Minute ≤ entry.ExpiresAt) ∨
        (∃ status tr,
          (grantAuth 3600).authEndpoint (tokenForm "shop" "secret") =
            HttpReply.response StatusOK status (some tr) ∧
          (Token (grantAuth 3600) 0 TokenMap.empty "shop" "secret").exchanges =
            [tokenForm "shop" "secret"] ∧
          entry.ExpiresAt = (grantAuth 3600).storeTime + secondsToDuration tr.ExpiresIn ∧
          (0 ≤ tr.ExpiresIn → tr.ExpiresIn ≤ 9223372036 →
            entry.ExpiresAt = (grantAuth 3600).storeTime + tr.ExpiresIn * Second) ∧
          (300 < tr.ExpiresIn → tr.ExpiresIn ≤ 9223372036 → 0 ≤ (grantAuth 3600).storeTime →
            0 + 5 * Minute < entry.ExpiresAt))) :=
  ⟨rfl, Token_freshness (grantAuth 3600) 0 TokenMap.empty "shop" "secret" "fresh" rfl⟩

/-- Claim C2, as the code has it: a cached token with exactly 5 minutes remaining is
returned from the cache and no exchange is performed, where the claim has one exchange
and the new token. (And an entry whose token is the empty string is refreshed although
it has an hour remaining.) -/
theorem Token_threshold_counterexample :
    ((oneToken "shop" ⟨"old", 5 * Minute⟩) "shop" = some ⟨"old", 5 * Minute⟩ ∧
      (5 * Minute - 0 ≤ 5 * Minute) ∧
      (Token (grantAuth 3600) 0 (oneToken "shop" ⟨"old", 5 * Minute⟩) "shop"
        "secret").exchanges = [] ∧
      (Token (grantAuth 3600) 0 (oneToken "shop" ⟨"old", 5 * Minute⟩) "shop"
        "secret").result = Except.ok "old") ∧
    ((oneToken "shop" ⟨"", 60 * Minute⟩) "shop" = some ⟨"", 60 * Minute⟩ ∧
      (5 * Minute < 60 * Minute - 0) ∧
      (Token (grantAuth 3600) 0 (oneToken "shop" ⟨"", 60 * Minute⟩) "shop"
        "secret").exchanges = [tokenForm "shop" "secret"] ∧
      (Token (grantAuth 3600) 0 (oneToken "shop" ⟨"", 60 * Minute⟩) "shop"
        "secret").result = Except.ok "fresh") :=
  ⟨⟨by decide, by decide, by decide, rfl⟩, ⟨by decide, by decide, by decide, rfl⟩⟩

/-- Claim C2, amended: for a cache holding an entry for the client id, if the cached
token is not empty and has at least 5 minutes remaining (exactly 5 minutes included),
`Token` returns it, performs no exchange and leaves the map alone; if it has less than
5 minutes remaining and the token URL is well-formed, `Token` performs exactly one
exchange, returns the newly obtained token and stores it when the exchange succeeds,
and returns an error when it fails. -/
theorem Token_threshold (env : AuthEnv) (now : Int) (tokens : TokenMap) (cId cSec : String)
    (tc : tokenCache) (hentry : tokens cId = some tc) :
    (tc.Token ≠ "" → 5 * Minute ≤ tc.ExpiresAt - now →
      (Token env now tokens cId cSec).result = Except.ok tc.Token ∧
      (Token env now tokens cId cSec).exchanges = [] ∧
      (Token env now tokens cId cSec).tokens = tokens) ∧
    (tc.ExpiresAt - now < 5 * Minute → env.tokenUrlError = none →
      (Token env now tokens cId cSec).exchanges = [tokenForm cId cSec] ∧
      (∀ status tr,
        env.authEndpoint (tokenForm cId cSec) = HttpReply.response StatusOK status (some tr) →
        (Token env now tokens cId cSec).result = Except.ok tr.AccessToken ∧
        (Token env now tokens cId cSec).tokens cId =
          some { Token := tr.AccessToken,
                 ExpiresAt := env.storeTime + secondsToDuration tr.ExpiresIn }) ∧
      (exchangeFails env cId cSec = true →
        ∃ err, (Token env now tokens cId cSec).result = Except.error err)) := by
  constructor
  · intro hne hexp
    have hneed : needsRefresh (tokens cId) now = false :=
      (needsRefresh_false_iff _ _).2 ⟨tc, hentry, hne, by omega⟩
    rw [Token_cached env now tokens cId cSec hneed]
    simp [TokenMap.get, hentry]
  · intro hexp hurl
    have hneed : needsRefresh (tokens cId) now = true := by
      cases h : needsRefresh (tokens cId) now with
      | true => rfl
      | false =>
        obtain ⟨tc', htc', -, hle⟩ := (needsRefresh_false_iff _ _).1 h
        rw [hentry] at htc'
        cases htc'
        omega
    refine ⟨?_, ?_, ?_⟩
    · cases hfail : exchangeFails env cId cSec with
      | true =>
        obtain ⟨err, -, -, hex⟩ := Token_refresh_failed env now tokens cId cSec hneed hfail
        rw [hex, if_pos hurl]
      | false =>
        obtain ⟨-, status, tr, hreply⟩ := exchangeFails_false env cId cSec hfail
        rw [Token_refreshed env now tokens cId cSec status tr hneed hurl hreply]
    · intro status tr hreply
      rw [Token_refreshed env now tokens cId cSec status tr hneed hurl hreply]
      exact ⟨rfl, TokenMap.set_self _ _ _⟩
    · intro hfail
      obtain ⟨err, herr, -, -⟩ := Token_refresh_failed env now tokens cId cSec hneed hfail
      exact ⟨err, herr⟩

/-- Claim C2, amended, at a cached token with 4 minutes remaining: one exchange, and the
new token is returned. -/
theorem Token_threshold_witness :
    (oneToken "shop" ⟨"old", 4 * Minute⟩) "shop" = some ⟨"old", 4 * Minute⟩ ∧
    (Token (grantAuth 3600) 0 (oneToken "shop" ⟨"old", 4 * Minute⟩) "shop" "secret").exchanges
      = [tokenForm "shop" "secret"] ∧
    (Token (grantAuth 3600) 0 (oneToken "shop" ⟨"old", 4 * Minute⟩) "shop" "secret").result
      = Except.ok "fresh" :=
  have h := (Token_threshold (grantAuth 3600) 0 (oneToken "shop" ⟨"old", 4 * Minute⟩)
    "shop" "secret" ⟨"old", 4 * Minute⟩ (by decide)).2 (by decide) rfl
  ⟨by decide, h.1, (h.2.1 "200 OK" ⟨"fresh", 3600, "Bearer"⟩ rfl).1⟩

/-- Claim C3: if the exchange fails (the request cannot be built, transport error,
status other than 200, or undecodable body), the token map after `Token` is exactly the
map before it, and `Token` returns an error whenever it had to perform the exchange
(when the cache is fresh it sends nothing). -/
theorem Token_failed_refresh_keeps_cache (env : AuthEnv) (now : Int) (tokens : TokenMap)
    (cId cSec : String) (hfail : exchangeFails env cId cSec = true) :
    (Token env now tokens cId cSec).tokens = tokens ∧
    (needsRefresh (tokens cId) now = true →
      ∃ err, (Token env now tokens cId cSec).result = Except.error err) ∧
    (needsRefresh (tokens cId) now = false →
      (Token env now tokens cId cSec).exchanges = []) := by
  cases hneed : needsRefresh (tokens cId) now with
  | false =>
    rw [Token_cached env now tokens cId cSec hneed]
    simp
  | true =>
    obtain ⟨err, herr, htok, -⟩ := Token_refresh_failed env now tokens cId cSec hneed hfail
    exact ⟨htok, fun _ => ⟨err, herr⟩, fun h => by simp at h⟩

/-- Claim C3 at a stale entry and an unreachable endpoint: the stale entry is kept and
the transport error is returned. -/
theorem Token_failed_refresh_keeps_cache_witness :
    exchangeFails downAuth "shop" "secret" = true ∧
    (Token downAuth 0 (oneToken "shop" ⟨"old", 4 * Minute⟩) "shop" "secret").tokens =
      oneToken "shop" ⟨"old", 4 * Minute⟩ ∧
    (Token downAuth 0 (oneToken "shop" ⟨"old", 4 * Minute⟩) "shop" "secret").result =
      Except.error (Error.transport "connection refused") :=
  have h := Token_failed_refresh_keeps_cache downAuth 0 (oneToken "shop" ⟨"old", 4 * Minute⟩)
    "shop" "secret" (by decide)
  ⟨by decide, h.1, rfl⟩

/-! ## Listing pagination -/

/-- The listing loop started at `page`, when the next `n` pages are full and the one after
them is short. -/
theorem listItems_from (fetchPage : Nat → HttpReply ItemsPage) (pages : Nat → ItemsPage) :
    ∀ (n fuel page : Nat) (items : List Item) (requested : List Nat),
      n + 1 ≤ fuel →
      (∀ p, page ≤ p → p ≤ page + n →
        ∃ status, fetchPage p = HttpReply.response StatusOK status (some (pages p))) →
      (∀ p, page ≤ p → p < page + n → (pages p).Resources.length = 100) →
      (pages (page + n)).Resources.length < 100 →
      listItems fetchPage fuel page items requested =
        some (Except.ok (items ++ (List.range' page (n + 1)).flatMap
                fun p => (pages p).Resources),
              requested ++ List.range' page (n + 1)) := by
  intro n
  induction n with
  | zero =>
    intro fuel page items requested hfuel hreply _ hlast
    obtain ⟨fuel', rfl⟩ : ∃ f, fuel = f + 1 := ⟨fuel - 1, by omega⟩
    obtain ⟨status, hst⟩ := hreply page (le_refl _) (by omega)
    simp only [Nat.add_zero] at hlast
    simp [listItems, hst, hlast, List.range', List.flatMap]
  | succ n ih =>
    intro fuel page items requested hfuel hreply hfull hlast
    obtain ⟨fuel', rfl⟩ : ∃ f, fuel = f + 1 := ⟨fuel - 1, by omega⟩
    obtain ⟨status, hst⟩ := hreply page (le_refl _) (by omega)
    have hlen : ¬ (pages page).Resources.length < 100 := by
      rw [hfull page (le_refl _) (by omega)]
      omega
    have hrec := ih fuel' (page + 1) (items ++ (pages page).Resources) (requested ++ [page])
      (by omega)
      (fun p h1 h2 => hreply p (by omega) (by omega))
      (fun p h1 h2 => hfull p (by omega) (by omega))
      (by rw [show page + 1 + n = page + (n + 1) by omega]; exact hlast)
    rw [listItems, hst]
    simp only [ne_eq, not_true_eq_false, ↓reduceIte, hlen]
    rw [hrec]
    simp [List.range', List.flatMap, List.append_assoc]

/-- Claim C4: if the upstream answers pages `1..k` with the item lists `pages 1`, ...,
`pages k`, page `k` is the first with fewer than 100 items and every earlier page has
exactly 100, then with fuel for `k` requests the listing loop terminates, has requested
exactly the pages `1, 2, ..., k` in that order, and returns the concatenation of the
pages `1..k` in page order. -/
theorem listing_pagination (fetchPage : Nat → HttpReply ItemsPage) (pages : Nat → ItemsPage)
    (k fuel : Nat) (hk : 1 ≤ k) (hfuel : k ≤ fuel)
    (hreply : ∀ p, 1 ≤ p → p ≤ k →
      ∃ status, fetchPage p = HttpReply.response StatusOK status (some (pages p)))
    (hfull : ∀ p, 1 ≤ p → p < k → (pages p).Resources.length = 100)
    (hlast : (pages k).Resources.length < 100) :
    listItems fetchPage fuel 1 [] [] =
      some (Except.ok ((List.range' 1 k).flatMap fun p => (pages p).Resources),
            List.range' 1 k) := by
  obtain ⟨n, rfl⟩ : ∃ n, k = n + 1 := ⟨k - 1, by omega⟩
  have h := listItems_from fetchPage pages n fuel 1 [] [] hfuel
    (fun p h1 h2 => hreply p h1 (by omega))
    (fun p h1 h2 => hfull p h1 (by omega))
    (by rw [show 1 + n = n + 1 by omega]; exact hlast)
  simpa using h

/-- Claim C4 at a listing of 103 items: pages 1 and 2 are requested and concatenated. -/
theorem listing_pagination_witness :
    listItems twoPageListing 2 1 [] [] =
      some (Except.ok ((List.range' 1 2).flatMap fun p => (twoPages p).Resources),
            List.range' 1 2) :=
  listing_pagination twoPageListing twoPages 2 2 (by decide) (by decide)
    (fun _ _ _ => ⟨"200 OK", rfl⟩)
    (fun p h1 h2 => by
      have hp : p = 1 := by omega
      subst hp
      simp [twoPages, numberedItems])
    (by simp [twoPages, numberedItems])

/-! ## Bid batching -/

/-- The batch the loop sends at index `i` is the next 200 items, or what is left. -/
theorem batch_eq (items : List Item) (i : Nat) :
    (((items.take (if i + 200 > items.length then items.length else i + 200)).drop i).map
        fun it => it.ID) = ((items.drop i).take 200).map fun it => it.ID := by
  congr 1
  split
  · rw [List.take_length, List.take_of_length_le]
    simp only [List.length_drop]
    omega
  · rw [List.drop_take]
    congr 1
    omega

/-- The batch loop from index `i`: it ends, and when every batch it sent was answered
successfully, it returns a bid map and the batches cut the remaining ids into runs of
200 with a shorter non-empty last one. -/
theorem bidLoop_spec (fetchBids : List Int → HttpReply (List BidItem)) (items : List Item) :
    ∀ (fuel i : Nat) (idToBid : IntMap Int) (sent : List (List Int)),
      items.length - i < fuel →
      ∃ res new, bidLoop fetchBids items fuel i idToBid sent = some (res, sent ++ new) ∧
        ((∀ b ∈ new, (fetchBids b).succeeded = true) →
          (∃ bids, res = Except.ok bids) ∧
          new.flatten = (items.drop i).map (fun it => it.ID) ∧
          new.length = (items.length - i + 199) / 200 ∧
          (∀ b ∈ new, 0 < b.length ∧ b.length ≤ 200) ∧
          (∀ b ∈ new.dropLast, b.length = 200)) := by
  intro fuel
  induction fuel with
  | zero =>
    intro i idToBid sent h
    omega
  | succ fuel ih =>
    intro i idToBid sent hfuel
    rw [bidLoop]
    by_cases hi : i < items.length
    · simp only [hi, ↓reduceIte]
      rw [batch_eq]
      set b := ((items.drop i).take 200).map (fun it => it.ID) with hb
      have hblen : b.length = min 200 (items.length - i) := by
        simp [hb]
      cases hreply : fetchBids b with
      | transportError msg =>
        refine ⟨Except.error (Error.transport msg), [b], rfl, ?_⟩
        intro hall
        have := hall b (by simp)
        simp [hreply, HttpReply.succeeded] at this
      | response statusCode status body =>
        by_cases hs : statusCode = StatusOK
        · cases body with
          | none =>
            refine ⟨Except.error (Error.decode "decode"), [b], by simp [hs], ?_⟩
            intro hall
            have := hall b (by simp)
            simp [hreply, HttpReply.succeeded] at this
          | some bidRes =>
            obtain ⟨res, new, hrun, hprop⟩ :=
              ih (i + 200) (addBids idToBid bidRes) (sent ++ [b]) (by omega)
            refine ⟨res, b :: new, by simp [hs, hrun], ?_⟩
            intro hall
            obtain ⟨hok, hflat, hlen, hsize, hfull⟩ :=
              hprop (fun c hc => hall c (List.mem_cons_of_mem _ hc))
            refine ⟨hok, ?_, ?_, ?_, ?_⟩
            · rw [List.flatten_cons, hflat, hb, ← List.map_append]
              congr 1
              rw [← List.drop_drop, List.take_append_drop]
            · rw [List.length_cons, hlen]
              omega
            · intro c hc
              rcases List.mem_cons.1 hc with rfl | hc
              · rw [hblen]; omega
              · exact hsize c hc
            · intro c hc
              cases new with
              | nil => simp at hc
              | cons d rest =>
                rw [List.dropLast_cons₂] at hc
                rcases List.mem_cons.1 hc with rfl | hc
                · rw [hblen]
                  simp only [List.length_cons] at hlen
                  omega
                · exact hfull c hc
        · refine ⟨Except.error (Error.badStatus status), [b], by simp [hs], ?_⟩
          intro hall
          have := hall b (by simp)
          simp [hreply, HttpReply.succeeded, hs] at this
    · refine ⟨Except.ok idToBid, [], by simp [hi], ?_⟩
      intro _
      have h0 : items.length - i = 0 := by omega
      have hdrop : items.drop i = [] := List.drop_eq_nil_of_le (by omega)
      simp [h0, hdrop]

/-- Three batches covering 450 ids, the first two full, have sizes 200, 200, 50. -/
theorem sizes_of_450 (sent : List (List Int)) (ids : List Int)
    (hflat : sent.flatten = ids) (hlen : sent.length = 3)
    (hfull : ∀ b ∈ sent.dropLast, b.length = 200) (hids : ids.length = 450) :
    sent.map List.length = [200, 200, 50] := by
  match sent, hlen with
  | [a, b, c], _ =>
    have ha : a.length = 200 := hfull a (by simp)
    have hb : b.length = 200 := hfull b (by simp)
    have hsum : (a ++ (b ++ c)).length = 450 := by
      rw [← hids, ← hflat]
      simp
    simp only [List.length_append] at hsum
    simp only [List.map_cons, List.map_nil, ha, hb]
    congr 2
    congr 1
    omega

/-- Claim C5: for every list of `n` listed items the bid stage ends, and when every
batch it sent was answered successfully it returns a bid map after exactly
`ceil(n / 200)` batch calls; every batch is non-empty with at most 200 ids, every batch
but the last has exactly 200, the batches concatenated in call order are the listed id
sequence, and 450 ids give the batch sizes `[200, 200, 50]`. -/
theorem bid_batching (fetchBids : List Int → HttpReply (List BidItem)) (items : List Item) :
    ∃ res sent, bidStage fetchBids items = some (res, sent) ∧
      ((∀ b ∈ sent, (fetchBids b).succeeded = true) →
        (∃ bids, res = Except.ok bids) ∧
        sent.length = (items.length + 199) / 200 ∧
        (∀ b ∈ sent, 0 < b.length ∧ b.length ≤ 200) ∧
        (∀ b ∈ sent.dropLast, b.length = 200) ∧
        sent.flatten = items.map (fun it => it.ID) ∧
        (items.length = 450 → sent.map List.length = [200, 200, 50])) := by
  obtain ⟨res, new, hrun, hprop⟩ :=
    bidLoop_spec fetchBids items (items.length + 1) 0 IntMap.empty [] (by omega)
  refine ⟨res, new, by simpa [bidStage] using hrun, ?_⟩
  intro hall
  obtain ⟨hok, hflat, hlen, hsize, hfull⟩ := hprop hall
  simp only [List.drop_zero, Nat.sub_zero] at hflat hlen
  refine ⟨hok, hlen, hsize, hfull, hflat, ?_⟩
  intro h450
  exact sizes_of_450 new _ hflat (by rw [hlen, h450]) hfull (by simp [h450])

/-- Claim C5 at 450 items and a bid endpoint that always answers: three calls of sizes
200, 200 and 50. -/
theorem bid_batching_witness :
    ∃ res sent, bidStage noBids (numberedItems 450) = some (res, sent) ∧
      (∃ bids, res = Except.ok bids) ∧ sent.length = 3 ∧
      sent.map List.length = [200, 200, 50] := by
  obtain ⟨res, sent, hrun, h⟩ := bid_batching noBids (numberedItems 450)
  have hall := h (fun _ _ => rfl)
  have hlen : (numberedItems 450).length = 450 := by simp [numberedItems]
  refine ⟨res, sent, hrun, hall.1, ?_, hall.2.2.2.2.2 hlen⟩
  rw [hall.2.1, hlen]

/-! ## Join -/

theorem joinLoop_eq (groupings : List AvitoGrouping) (idToBid : IntMap Int) :
    ∀ (items : List Item) (itemMetrics : List ItemMetrics),
      joinLoop groupings idToBid itemMetrics items =
        itemMetrics ++ items.map (joinItem groupings idToBid) := by
  intro items
  induction items with
  | nil => intro acc; simp [joinLoop]
  | cons it rest ih => intro acc; simp [joinLoop, ih]

/-- The join loop produces the record of each listed item, in listing order. -/
theorem joinItems_eq_map (groupings : List AvitoGrouping) (idToBid : IntMap Int)
    (items : List Item) :
    joinItems groupings idToBid items = items.map (joinItem groupings idToBid) := by
  simp [joinItems, joinLoop_eq]

/-- What a returned run of the pipeline holds: the join of the listing (nothing for an
empty listing). -/
theorem GetMetricsForAllItems_returned (env : ItemsEnv) (fuel : Nat) (tokens : TokenMap)
    (cId cSec : String) (run : ItemsRun) (ms : List ItemMetrics) (items : List Item)
    (pages : List Nat)
    (hrun : GetMetricsForAllItems env fuel tokens cId cSec = some run)
    (hret : run.outcome = ItemsOutcome.returned ms)
    (hlist : listItems env.fetchPage fuel 1 [] [] = some (Except.ok items, pages)) :
    ∃ groupings idToBid, ms = joinItems groupings idToBid items := by
  unfold GetMetricsForAllItems at hrun
  simp only [hlist] at hrun
  split at hrun
  · cases hrun; simp at hret
  · split at hrun
    · cases hrun; simp at hret
    · split at hrun
      · cases hrun
        simp only [ItemsOutcome.returned.injEq] at hret
        subst hret
        rename_i h0
        have : items = [] := List.length_eq_zero.1 h0
        subst this
        exact ⟨[], IntMap.empty, rfl⟩
      · split at hrun
        · cases hrun; simp at hret
        · split at hrun
          · cases hrun; simp at hret
          · split at hrun
            · cases hrun; simp at hret
            · split at hrun
              · cases hrun
              · cases hrun; simp at hret
              · cases hrun
                simp only [ItemsOutcome.returned.injEq] at hret
                exact ⟨_, _, hret.symm⟩

/-- When the token, listing, grouped-metrics and bid stages succeed on a non-empty
listing, the pipeline returns the join. -/
theorem GetMetricsForAllItems_of_stages (env : ItemsEnv) (fuel : Nat) (tokens : TokenMap)
    (cId cSec token status : String) (items : List Item) (pages : List Nat)
    (metricsRes : AvitoMetricsResponse) (idToBid : IntMap Int) (sent : List (List Int))
    (htoken : (Token env.auth env.now tokens cId cSec).result = Except.ok token)
    (hlen : 10 ≤ token.utf8ByteSize)
    (hlist : listItems env.fetchPage fuel 1 [] [] = some (Except.ok items, pages))
    (hne : items ≠ [])
    (hmetrics : env.itemMetricsEndpoint =
      HttpReply.response StatusOK status (some metricsRes))
    (hbids : bidStage env.fetchBids items = some (Except.ok idToBid, sent)) :
    GetMetricsForAllItems env fuel tokens cId cSec =
      some ⟨ItemsOutcome.returned (joinItems metricsRes.Result.Groupings idToBid items),
            Token env.auth env.now tokens cId cSec, pages, 1, sent⟩ := by
  have h10 : ¬ token.utf8ByteSize < 10 := by omega
  have h0 : ¬ items.length = 0 := fun h => hne (List.length_eq_zero.1 h)
  simp [GetMetricsForAllItems, htoken, h10, hlist, h0, hmetrics, hbids]

/-- Claim C6: whenever `GetMetricsForAllItems` returns a result and the listing stage
produced `items`, the result has exactly one `ItemMetrics` per listed item in listing
order: it has the length of the listing and its `k`-th element carries the id, link
(url) and title of the `k`-th listed item, whatever the ids, the groupings and the
bids are. -/
theorem join_preserves_listing (env : ItemsEnv) (fuel : Nat) (tokens : TokenMap)
    (cId cSec : String) (run : ItemsRun) (ms : List ItemMetrics) (items : List Item)
    (pages : List Nat)
    (hrun : GetMetricsForAllItems env fuel tokens cId cSec = some run)
    (hret : run.outcome = ItemsOutcome.returned ms)
    (hlist : listItems env.fetchPage fuel 1 [] [] = some (Except.ok items, pages)) :
    ms.length = items.length ∧
    ∀ (k : Nat) (hk : k < items.length), ∃ m, ms[k]? = some m ∧
      m.ID = items[k].ID ∧ m.Link = items[k].URL ∧ m.Title = items[k].Title := by
  obtain ⟨groupings, idToBid, rfl⟩ :=
    GetMetricsForAllItems_returned env fuel tokens cId cSec run ms items pages hrun hret hlist
  rw [joinItems_eq_map]
  refine ⟨by simp, ?_⟩
  intro k hk
  refine ⟨joinItem groupings idToBid items[k], by simp [hk], rfl, rfl, rfl⟩

/-- Claim C6 at the listing of two items with metrics and a bid for the first only. -/
theorem join_preserves_listing_witness :
    (joinItems groupingsForOne bidsForOne twoItems).length = twoItems.length ∧
    ∀ (k : Nat) (hk : k < twoItems.length),
      ∃ m, (joinItems groupingsForOne bidsForOne twoItems)[k]? = some m ∧
        m.ID = twoItems[k].ID ∧ m.Link = twoItems[k].URL ∧ m.Title = twoItems[k].Title :=
  join_preserves_listing twoItemsEnv 1 hourToken "shop" "secret"
    ⟨ItemsOutcome.returned (joinItems groupingsForOne bidsForOne twoItems),
      Token downAuth 0 hourToken "shop" "secret", [1], 1, [[1, 2]]⟩
    (joinItems groupingsForOne bidsForOne twoItems) twoItems [1] rfl rfl rfl

theorem IntMap.get_empty {K : Type} (k : K) : IntMap.get (IntMap.empty : IntMap K) k = 0 :=
  rfl

/-- The scan finds nothing when no grouping has the id. -/
theorem findGrouping_miss (groupings : List AvitoGrouping) (id : Int)
    (h : ∀ g ∈ groupings, g.ID ≠ id) :
    findGrouping groupings id = (AvitoGrouping.zero, false) := by
  induction groupings with
  | nil => rfl
  | cons g rest ih =>
    have hg : g.ID ≠ id := h g (by simp)
    simp only [findGrouping, hg, ↓reduceIte]
    exact ih (fun g' hg' => h g' (List.mem_cons_of_mem _ hg'))

/-- The join of an item whose id matches no grouping. -/
theorem joinItem_miss (groupings : List AvitoGrouping) (idToBid : IntMap Int) (it : Item)
    (h : ∀ g ∈ groupings, g.ID ≠ it.ID) :
    joinItem groupings idToBid it =
      { ID := it.ID, Link := it.URL, Title := it.Title, Impressions := 0, Views := 0,
        Contacts := 0, Spending := 0, BidPenny := IntMap.get idToBid it.ID,
        CostPerContactLastHour := Float64.finite 0 } := by
  simp [joinItem, findGrouping_miss groupings it.ID h, AvitoGrouping.zero, addMetrics,
    IntMap.get_empty, costPerContact]

/-- Claim C7: when the token, listing, grouped-metrics and bid stages succeed on a
non-empty listing, `GetMetricsForAllItems` returns a result (no error), and for every
listed item: if its id matches no grouping of the grouped-metrics response, its record
has impressions, views, contacts and spending 0 and cost per contact 0; if its id is
absent from the collected bid map, its bid is 0; if its id is present, its bid is the
mapped one. -/
theorem join_tolerates_misses (env : ItemsEnv) (fuel : Nat) (tokens : TokenMap)
    (cId cSec token status : String) (items : List Item) (pages : List Nat)
    (metricsRes : AvitoMetricsResponse) (idToBid : IntMap Int) (sent : List (List Int))
    (htoken : (Token env.auth env.now tokens cId cSec).result = Except.ok token)
    (hlen : 10 ≤ token.utf8ByteSize)
    (hlist : listItems env.fetchPage fuel 1 [] [] = some (Except.ok items, pages))
    (hne : items ≠ [])
    (hmetrics : env.itemMetricsEndpoint =
      HttpReply.response StatusOK status (some metricsRes))
    (hbids : bidStage env.fetchBids items = some (Except.ok idToBid, sent)) :
    ∃ run ms, GetMetricsForAllItems env fuel tokens cId cSec = some run ∧
      run.outcome = ItemsOutcome.returned ms ∧
      ∀ (k : Nat) (hk : k < items.length), ∃ m, ms[k]? = some m ∧ m.ID = items[k].ID ∧
        ((∀ g ∈ metricsRes.Result.Groupings, g.ID ≠ items[k].ID) →
          m.Impressions = 0 ∧ m.Views = 0 ∧ m.Contacts = 0 ∧ m.Spending = 0 ∧
          m.CostPerContactLastHour = Float64.finite 0) ∧
        (idToBid items[k].ID = none → m.BidPenny = 0) ∧
        (∀ bid, idToBid items[k].ID = some bid → m.BidPenny = bid) := by
  refine ⟨_, _, GetMetricsForAllItems_of_stages env fuel tokens cId cSec token status items
    pages metricsRes idToBid sent htoken hlen hlist hne hmetrics hbids, rfl, ?_⟩
  intro k hk
  refine ⟨joinItem metricsRes.Result.Groupings idToBid items[k],
    by simp [joinItems_eq_map, hk], rfl, ?_, ?_, ?_⟩
  · intro h
    rw [joinItem_miss metricsRes.Result.Groupings idToBid items[k] h]
    exact ⟨rfl, rfl, rfl, rfl, rfl⟩
  · intro h
    simp [joinItem, IntMap.get, h]
  · intro bid h
    simp [joinItem, IntMap.get, h]

/-- Claim C7 at listing `[1, 2]`, one grouping for id 1 and bids `{1: 100}`: the call
returns; item 1 has bid 100; item 2 has all-zero metrics and bid 0. -/
theorem join_tolerates_misses_witness :
    ∃ run ms, GetMetricsForAllItems twoItemsEnv 1 hourToken "shop" "secret" = some run ∧
      run.outcome = ItemsOutcome.returned ms ∧
      (∃ m, ms[0]? = some m ∧ m.ID = 1 ∧ m.BidPenny = 100) ∧
      (∃ m, ms[1]? = some m ∧ m.ID = 2 ∧ m.Impressions = 0 ∧ m.Views = 0 ∧ m.Contacts = 0 ∧
        m.Spending = 0 ∧ m.CostPerContactLastHour = Float64.finite 0 ∧ m.BidPenny = 0) := by
  obtain ⟨run, ms, hrun, hret, hall⟩ :=
    join_tolerates_misses twoItemsEnv 1 hourToken "shop" "secret" "0123456789abcdef" "200 OK"
      twoItems [1] ⟨⟨1, groupingsForOne, ""⟩⟩ bidsForOne [[1, 2]]
      rfl (by decide) rfl (by decide) rfl rfl
  refine ⟨run, ms, hrun, hret, ?_, ?_⟩
  · obtain ⟨m, hm, hid, -, -, hsome⟩ := hall 0 (by decide)
    exact ⟨m, hm, hid, hsome 100 (by decide)⟩
  · obtain ⟨m, hm, hid, hzero, hnone, -⟩ := hall 1 (by decide)
    have hz := hzero (by decide)
    exact ⟨m, hm, hid, hz.1, hz.2.1, hz.2.2.1, hz.2.2.2.1, hz.2.2.2.2, hnone (by decide)⟩

/-! ## Cost per contact -/

theorem roundHalfEven_intCast (z : Int) : roundHalfEven (z : ℚ) = z := by
  simp [roundHalfEven]

theorem roundHalfEven_ge_floor (q : ℚ) : ⌊q⌋ ≤ roundHalfEven q := by
  unfold roundHalfEven
  simp only
  split
  · exact le_refl _
  · split
    · omega
    · split <;> omega

theorem log_eq_of_bounds (q : ℚ) (e : Int) (h1 : (2 : ℚ) ^ e ≤ q) (h2 : q < (2 : ℚ) ^ (e + 1)) :
    Int.log 2 q = e := by
  have hq : 0 < q := lt_of_lt_of_le (by positivity) h1
  have ha : e ≤ Int.log 2 q := (Int.zpow_le_iff_le_log (by norm_num) hq).1 (by exact_mod_cast h1)
  have hb : Int.log 2 q < e + 1 := (Int.lt_zpow_iff_log_lt (by norm_num) hq).1 (by exact_mod_cast h2)
  omega

theorem ulpExponent_le (q : ℚ) (k : Int) (hq : q ≠ 0) (hk : -1074 ≤ k)
    (hlt : |q| < (2 : ℚ) ^ (k + 53)) : ulpExponent q ≤ k := by
  have hpos : 0 < |q| := abs_pos.2 hq
  have hb : Int.log 2 |q| < k + 53 :=
    (Int.lt_zpow_iff_log_lt (by norm_num) hpos).1 (by exact_mod_cast hlt)
  unfold ulpExponent
  omega

/-- A rational `m * 2 ^ k` with a significand below `2 ^ 53` and an exponent in range is a
`float64`: rounding leaves it as it is. -/
theorem Float64.round_exact (m k : Int) (hm : |m| < 2 ^ 53) (hk1 : -1074 ≤ k) (hk2 : k ≤ 970) :
    Float64.round ((m : ℚ) * 2 ^ k) = Float64.finite ((m : ℚ) * 2 ^ k) := by
  by_cases hm0 : m = 0
  · subst hm0
    simp [Float64.round]
  have h2k : (0 : ℚ) < 2 ^ k := by positivity
  have hq : (m : ℚ) * 2 ^ k ≠ 0 := mul_ne_zero (by exact_mod_cast hm0) (ne_of_gt h2k)
  have hmq : |(m : ℚ)| < 2 ^ (53 : Nat) := by
    have : ((|m| : Int) : ℚ) < ((2 ^ 53 : Int) : ℚ) := by exact_mod_cast hm
    simpa using this
  have habs : |(m : ℚ) * 2 ^ k| = |(m : ℚ)| * 2 ^ k := by
    rw [abs_mul, abs_of_pos h2k]
  have hlt : |(m : ℚ) * 2 ^ k| < (2 : ℚ) ^ (k + 53) := by
    rw [habs, zpow_add₀ (by norm_num : (2 : ℚ) ≠ 0), mul_comm ((2 : ℚ) ^ k)]
    have : (2 : ℚ) ^ (53 : Int) = 2 ^ (53 : Nat) := by norm_cast
    rw [this]
    exact mul_lt_mul_of_pos_right hmq h2k
  have hu := ulpExponent_le _ k hq hk1 hlt
  obtain ⟨d, hd⟩ : ∃ d : Nat, k = ulpExponent ((m : ℚ) * 2 ^ k) + d :=
    ⟨(k - ulpExponent ((m : ℚ) * 2 ^ k)).toNat, by omega⟩
  have hdiv : (m : ℚ) * 2 ^ k / 2 ^ ulpExponent ((m : ℚ) * 2 ^ k) = ((m * 2 ^ d : Int) : ℚ) := by
    have hne : (2 : ℚ) ^ ulpExponent ((m : ℚ) * 2 ^ k) ≠ 0 := by positivity
    rw [div_eq_iff hne]
    nth_rewrite 1 [hd]
    rw [zpow_add₀ (by norm_num : (2 : ℚ) ≠ 0), zpow_natCast]
    push_cast
    ring
  have hover : ¬ ((2 : ℚ) ^ (1024 : Int) ≤ |(m : ℚ) * 2 ^ k|) := by
    rw [not_le]
    exact lt_of_lt_of_le hlt (zpow_le_zpow_right₀ (by norm_num) (by omega))
  unfold Float64.round
  rw [if_neg hq]
  simp only
  rw [hdiv, roundHalfEven_intCast, ← hdiv, div_mul_cancel₀ _ (by positivity)]
  rw [if_neg hover]

/-- Integers up to `2 ^ 53` in magnitude convert to `float64` exactly. -/
theorem Float64.ofInt_exact (n : Int) (h : |n| ≤ 2 ^ 53) :
    Float64.ofInt n = Float64.finite n := by
  unfold Float64.ofInt
  by_cases hlt : |n| < 2 ^ 53
  · have := Float64.round_exact n 0 hlt (by norm_num) (by norm_num)
    simpa using this
  · have habs : |n| = 2 ^ 53 := le_antisymm h (not_lt.1 hlt)
    obtain ⟨m, hm, hm2⟩ : ∃ m : Int, n = m * 2 ∧ |m| < 2 ^ 53 := by
      rcases abs_eq (by norm_num : (0 : Int) ≤ 2 ^ 53) |>.1 habs with h1 | h1
      · exact ⟨2 ^ 52, by rw [h1]; norm_num, by norm_num⟩
      · exact ⟨-(2 ^ 52), by rw [h1]; norm_num, by norm_num⟩
    have := Float64.round_exact m 1 hm2 (by norm_num) (by norm_num)
    rw [hm]
    push_cast
    simpa using this

/-- A positive integer never converts to the `float64` zero. -/
theorem Float64.ofInt_ne_zero (c : Int) (hc : 0 < c) : Float64.ofInt c ≠ Float64.finite 0 := by
  have hq : (0 : ℚ) < (c : ℚ) := by exact_mod_cast hc
  have h1 : (1 : ℚ) ≤ (c : ℚ) := by exact_mod_cast hc
  have hlog0 : 0 ≤ Int.log 2 |(c : ℚ)| := by
    rw [abs_of_pos hq]
    have := (Int.zpow_le_iff_le_log (b := 2) (x := 0) (by norm_num) hq).1 (by simpa using h1)
    exact this
  have hu : ulpExponent (c : ℚ) = Int.log 2 |(c : ℚ)| - 52 := by
    unfold ulpExponent
    omega
  have hle : (2 : ℚ) ^ Int.log 2 |(c : ℚ)| ≤ (c : ℚ) := by
    rw [abs_of_pos hq]
    exact_mod_cast Int.zpow_log_le_self (b := 2) (by norm_num) hq
  have hbig : (1 : ℚ) ≤ (c : ℚ) / 2 ^ ulpExponent (c : ℚ) := by
    rw [le_div_iff₀ (by positivity), one_mul, hu]
    refine le_trans ?_ hle
    exact zpow_le_zpow_right₀ (by norm_num) (by omega)
  have hfloor : 1 ≤ ⌊(c : ℚ) / 2 ^ ulpExponent (c : ℚ)⌋ := Int.le_floor.2 (by simpa using hbig)
  have hrne : 1 ≤ roundHalfEven ((c : ℚ) / 2 ^ ulpExponent (c : ℚ)) :=
    le_trans hfloor (roundHalfEven_ge_floor _)
  have hr : (0 : ℚ) <
      (roundHalfEven ((c : ℚ) / 2 ^ ulpExponent (c : ℚ)) : ℚ) * 2 ^ ulpExponent (c : ℚ) := by
    have : (0 : ℚ) < (roundHalfEven ((c : ℚ) / 2 ^ ulpExponent (c : ℚ)) : ℚ) := by
      exact_mod_cast hrne
    positivity
  unfold Float64.ofInt Float64.round
  rw [if_neg (ne_of_gt hq)]
  simp only
  split
  · simp
  · intro h
    simp only [Float64.finite.injEq] at h
    exact absurd h (ne_of_gt hr)

/-- The `float64` nearest to one third. -/
theorem Float64.round_one_third :
    Float64.round (1 / 3) = Float64.finite (6004799503160661 / 18014398509481984) := by
  have hlog : Int.log 2 |(1 / 3 : ℚ)| = -2 := by
    rw [abs_of_pos (by norm_num)]
    exact log_eq_of_bounds _ _ (by norm_num) (by norm_num)
  have hu : ulpExponent (1 / 3 : ℚ) = -54 := by
    unfold ulpExponent
    rw [hlog]
    rfl
  have hdiv : (1 / 3 : ℚ) / 2 ^ (-54 : Int) = 18014398509481984 / 3 := by
    norm_num
  have hfloor : ⌊(18014398509481984 / 3 : ℚ)⌋ = 6004799503160661 := by
    rw [Int.floor_eq_iff]
    constructor <;> norm_num
  have hrne : roundHalfEven (18014398509481984 / 3 : ℚ) = 6004799503160661 := by
    unfold roundHalfEven
    simp only [hfloor]
    norm_num
  have hval : ((6004799503160661 : Int) : ℚ) * 2 ^ (-54 : Int) =
      6004799503160661 / 18014398509481984 := by
    norm_num
  have hbig : (1 : ℚ) ≤ 2 ^ (1024 : Int) := by
    have := zpow_le_zpow_right₀ (a := (2 : ℚ)) (by norm_num) (show (0 : Int) ≤ 1024 by norm_num)
    simpa using this
  have hover : ¬ ((2 : ℚ) ^ (1024 : Int) ≤ |(6004799503160661 / 18014398509481984 : ℚ)|) := by
    rw [not_le, abs_of_pos (by norm_num)]
    exact lt_of_lt_of_le (by norm_num) hbig
  unfold Float64.round
  rw [if_neg (by norm_num)]
  simp only [hu, hdiv, hrne, hval]
  rw [if_neg hover]

theorem Float64.div_finite (a b : ℚ) (hb : b ≠ 0) :
    Float64.div (Float64.finite a) (Float64.finite b) = Float64.round (a / b) := by
  simp [Float64.div, hb]

/-- The cost per contact of operands up to `2 ^ 53` is the rounded exact quotient. -/
theorem costPerContact_eq_round (spending contacts : Int) (hc : 0 < contacts)
    (hs : |spending| ≤ 2 ^ 53) (hc2 : contacts ≤ 2 ^ 53) :
    costPerContact spending contacts = Float64.round ((spending : ℚ) / contacts) := by
  have hcq : (contacts : ℚ) ≠ 0 := by exact_mod_cast (ne_of_gt hc)
  have hcabs : |contacts| ≤ 2 ^ 53 := by rw [abs_of_pos hc]; exact hc2
  rw [costPerContact, if_pos hc, Float64.ofInt_exact spending hs,
    Float64.ofInt_exact contacts hcabs, Float64.div_finite _ _ hcq]

/-- Claim C8, as the code has it: the cost per contact is a `float64`, so it is not the
exact quotient in general. With `spending = 1` and `contacts = 3` the join yields
`6004799503160661 / 2 ^ 54`, the `float64` nearest to one third, not one third. -/
theorem cost_per_contact_counterexample :
    (joinItem groupingsOneThird IntMap.empty ⟨1, "first", "u"⟩).Contacts = 3 ∧
    (joinItem groupingsOneThird IntMap.empty ⟨1, "first", "u"⟩).Spending = 1 ∧
    (joinItem groupingsOneThird IntMap.empty ⟨1, "first", "u"⟩).CostPerContactLastHour =
      Float64.finite (6004799503160661 / 18014398509481984) ∧
    (6004799503160661 / 18014398509481984 : ℚ) ≠ 1 / 3 := by
  refine ⟨rfl, rfl, ?_, by norm_num⟩
  have h : (joinItem groupingsOneThird IntMap.empty ⟨1, "first", "u"⟩).CostPerContactLastHour =
      costPerContact 1 3 := rfl
  rw [h, costPerContact_eq_round 1 3 (by decide) (by decide) (by decide)]
  have : ((1 : Int) : ℚ) / ((3 : Int) : ℚ) = 1 / 3 := by norm_num
  rw [this]
  exact Float64.round_one_third

/-- Claim C8, amended: for every `ItemMetrics` produced by the join, when
`contacts > 0` the cost per contact is the `float64` quotient
`float64(spending) / float64(contacts)` of that record's fields, and the divisor is not
zero; when `contacts <= 0` it is 0. For operands up to `2 ^ 53` in magnitude the
quotient is the exact quotient rounded to the nearest `float64`, hence the exact
quotient whenever that is a `float64` (a significand below `2 ^ 53` times a power of
two in range). -/
theorem cost_per_contact (groupings : List AvitoGrouping) (idToBid : IntMap Int)
    (items : List Item) (m : ItemMetrics) (hm : m ∈ joinItems groupings idToBid items) :
    (0 < m.Contacts →
      m.CostPerContactLastHour =
        Float64.div (Float64.ofInt m.Spending) (Float64.ofInt m.Contacts) ∧
      Float64.ofInt m.Contacts ≠ Float64.finite 0) ∧
    (m.Contacts ≤ 0 → m.CostPerContactLastHour = Float64.finite 0) ∧
    (0 < m.Contacts → |m.Spending| ≤ 2 ^ 53 → m.Contacts ≤ 2 ^ 53 →
      m.CostPerContactLastHour = Float64.round ((m.Spending : ℚ) / m.Contacts) ∧
      ∀ mant k : Int, |mant| < 2 ^ 53 → -1074 ≤ k → k ≤ 970 →
        (m.Spending : ℚ) / m.Contacts = (mant : ℚ) * 2 ^ k →
        m.CostPerContactLastHour = Float64.finite ((m.Spending : ℚ) / m.Contacts)) := by
  rw [joinItems_eq_map] at hm
  obtain ⟨it, -, rfl⟩ := List.mem_map.1 hm
  have hcpc : (joinItem groupings idToBid it).CostPerContactLastHour =
      costPerContact (joinItem groupings idToBid it).Spending
        (joinItem groupings idToBid it).Contacts := rfl
  refine ⟨?_, ?_, ?_⟩
  · intro hc
    exact ⟨by rw [hcpc, costPerContact, if_pos hc], Float64.ofInt_ne_zero _ hc⟩
  · intro hc
    rw [hcpc, costPerContact, if_neg (by omega)]
  · intro hc hs hc2
    have hround := costPerContact_eq_round _ _ hc hs hc2
    refine ⟨by rw [hcpc, hround], ?_⟩
    intro mant k hmant hk1 hk2 hq
    rw [hcpc, hround, hq]
    exact Float64.round_exact mant k hmant hk1 hk2

/-- Claim C8, amended, at `contacts = 4`, `spending = 40`: the cost per contact is 10. -/
theorem cost_per_contact_witness :
    ∃ m ∈ joinItems groupingsForOne bidsForOne twoItems,
      m.Contacts = 4 ∧ m.Spending = 40 ∧ m.CostPerContactLastHour = Float64.finite 10 := by
  have hm : joinItem groupingsForOne bidsForOne ⟨1, "first", "https://example.org/1"⟩ ∈
      joinItems groupingsForOne bidsForOne twoItems := by
    rw [joinItems_eq_map]
    exact List.mem_map.2 ⟨_, by simp [twoItems], rfl⟩
  have h := (cost_per_contact groupingsForOne bidsForOne twoItems _ hm).2.2
    (by decide) (by decide) (by decide)
  refine ⟨_, hm, rfl, rfl, ?_⟩
  have h10 := h.2 10 0 (by decide) (by decide) (by decide) (by
    show ((40 : Int) : ℚ) / ((4 : Int) : ℚ) = ((10 : Int) : ℚ) * 2 ^ (0 : Int)
    norm_num)
  rw [h10]
  show Float64.finite (((40 : Int) : ℚ) / ((4 : Int) : ℚ)) = Float64.finite 10
  norm_num

/-! ## Aggregate metrics -/

theorem addMetrics_congr (slug : String) :
    ∀ (ms : List AvitoMetric) (base base' : IntMap String), base slug = base' slug →
      addMetrics base ms slug = addMetrics base' ms slug := by
  intro ms
  induction ms with
  | nil => intro base base' h; exact h
  | cons m rest ih =>
    intro base base' h
    simp only [addMetrics]
    apply ih
    simp only [IntMap.set]
    split
    · rfl
    · exact h

theorem addMetrics_miss (slug : String) :
    ∀ (ms : List AvitoMetric) (base : IntMap String), (∀ m ∈ ms, m.Slug ≠ slug) →
      addMetrics base ms slug = base slug := by
  intro ms
  induction ms with
  | nil => intro base _; rfl
  | cons m rest ih =>
    intro base h
    simp only [addMetrics]
    rw [ih _ (fun m' hm' => h m' (List.mem_cons_of_mem _ hm'))]
    have : slug ≠ m.Slug := fun e => h m (by simp) e.symm
    simp [IntMap.set, this]

theorem addMetrics_append (ms ms' : List AvitoMetric) :
    ∀ base : IntMap String, addMetrics base (ms ++ ms') = addMetrics (addMetrics base ms) ms' := by
  induction ms with
  | nil => intro base; rfl
  | cons m rest ih =>
    intro base
    rw [List.cons_append, addMetrics, addMetrics, ih]

theorem addMetrics_last (base : IntMap String) (pre post : List AvitoMetric) (m : AvitoMetric)
    (h : ∀ m' ∈ post, m'.Slug ≠ m.Slug) :
    addMetrics base (pre ++ m :: post) m.Slug = some m.Value := by
  rw [addMetrics_append]
  simp only [addMetrics]
  rw [addMetrics_miss _ _ _ h]
  simp [IntMap.set]

theorem addMetrics_filter (slug : String) (p : AvitoMetric → Bool)
    (hp : ∀ m, m.Slug = slug → p m = true) :
    ∀ (ms : List AvitoMetric) (base : IntMap String),
      addMetrics base (ms.filter p) slug = addMetrics base ms slug := by
  intro ms
  induction ms with
  | nil => intro base; rfl
  | cons m rest ih =>
    intro base
    by_cases hm : p m = true
    · simp only [List.filter_cons, hm, ↓reduceIte, addMetrics]
      exact ih _
    · have hm' : p m = false := by simpa using hm
      simp only [List.filter_cons, hm', addMetrics]
      rw [if_neg (by simp), ih base]
      apply addMetrics_congr
      have : slug ≠ m.Slug := fun e => hm (hp m e.symm)
      simp [IntMap.set, this]

/-- The field of the aggregate record read from a slug is the map entry of that slug. -/
theorem aggregateFields_get (metricsMap : IntMap String) :
    ∀ sf ∈ aggregateFields, sf.2 (metricsData metricsMap) = IntMap.get metricsMap sf.1 := by
  intro sf hsf
  simp only [aggregateFields, List.mem_cons, List.mem_singleton, List.not_mem_nil, or_false] at hsf
  rcases hsf with rfl | rfl | rfl | rfl | rfl | rfl <;> rfl

/-- Claim C9: when the token is obtained and the metrics endpoint answers 200 with a
decoded response holding the single grouping `g`, `GetAvitoMetrics` succeeds and each
field of the result (spending, impressions, contacts, views and the two conversions)
is 0 when `g` has no metric with the slug of that field, and is the value of the metric
with that slug otherwise (of the last such metric, should the slug occur more than
once); metrics with other slugs do not affect the result. -/
theorem aggregate_flattening (env : AuthEnv) (now : Int)
    (metricsEndpoint : HttpReply AvitoMetricsResponse) (tokens : TokenMap)
    (cId cSec token status : String) (data : AvitoMetricsResponse) (g : AvitoGrouping)
    (htoken : (Token env now tokens cId cSec).result = Except.ok token)
    (hreply : metricsEndpoint = HttpReply.response StatusOK status (some data))
    (hone : data.Result.Groupings = [g]) :
    ∃ d, (GetAvitoMetrics env now metricsEndpoint tokens cId cSec).1 = Except.ok d ∧
      (∀ sf ∈ aggregateFields,
        ((∀ m ∈ g.Metrics, m.Slug ≠ sf.1) → sf.2 d = 0) ∧
        (∀ pre m post, g.Metrics = pre ++ m :: post → m.Slug = sf.1 →
          (∀ m' ∈ post, m'.Slug ≠ sf.1) → sf.2 d = m.Value)) ∧
      (∀ g' : AvitoGrouping,
        g'.Metrics.filter (fun m => decide (m.Slug ∈ aggregateFields.map Prod.fst)) =
          g.Metrics.filter (fun m => decide (m.Slug ∈ aggregateFields.map Prod.fst)) →
        metricsData (flattenGroupings IntMap.empty [g']) = d) := by
  refine ⟨metricsData (addMetrics IntMap.empty g.Metrics), ?_, ?_, ?_⟩
  · simp [GetAvitoMetrics, htoken, hreply, hone, flattenGroupings]
  · intro sf hsf
    rw [aggregateFields_get _ sf hsf]
    constructor
    · intro hmiss
      simp [IntMap.get, addMetrics_miss sf.1 g.Metrics IntMap.empty hmiss, IntMap.empty]
    · intro pre m post hsplit hslug hpost
      rw [← hslug] at hpost ⊢
      simp [IntMap.get, hsplit, addMetrics_last IntMap.empty pre post m hpost]
  · intro g' hfilter
    have key : ∀ sf ∈ aggregateFields,
        addMetrics IntMap.empty g'.Metrics sf.1 = addMetrics IntMap.empty g.Metrics sf.1 := by
      intro sf hsf
      have hp : ∀ m : AvitoMetric, m.Slug = sf.1 →
          decide (m.Slug ∈ aggregateFields.map Prod.fst) = true := by
        intro m hm
        rw [decide_eq_true_iff, hm]
        exact List.mem_map_of_mem _ hsf
      rw [← addMetrics_filter sf.1 _ hp g'.Metrics, ← addMetrics_filter sf.1 _ hp g.Metrics,
        hfilter]
    simp only [flattenGroupings, metricsData, IntMap.get]
    rw [key ("spending", AvitoMetricsData.Spending) (by simp [aggregateFields]),
      key ("impressions", AvitoMetricsData.Impressions) (by simp [aggregateFields]),
      key ("contacts", AvitoMetricsData.Contacts) (by simp [aggregateFields]),
      key ("views", AvitoMetricsData.Views) (by simp [aggregateFields]),
      key ("impressionsToViewsConversion", AvitoMetricsData.ImpressionsToViewsConversion)
        (by simp [aggregateFields]),
      key ("viewsToContactsConversion", AvitoMetricsData.ViewsToContactsConversion)
        (by simp [aggregateFields])]

/-- Claim C9 at the metrics `[{spending,500},{impressions,10}]`: spending 500,
impressions 10, contacts 0, views 0. -/
theorem aggregate_flattening_witness :
    ∃ d, (GetAvitoMetrics (grantAuth 3600) 0 totalsReply TokenMap.empty "shop" "secret").1 =
        Except.ok d ∧
      d.Spending = 500 ∧ d.Impressions = 10 ∧ d.Contacts = 0 ∧ d.Views = 0 := by
  obtain ⟨d, hd, hfields, -⟩ :=
    aggregate_flattening (grantAuth 3600) 0 totalsReply TokenMap.empty "shop" "secret" "fresh"
      "200 OK" totalsResponse totalsGrouping rfl rfl rfl
  refine ⟨d, hd, ?_, ?_, ?_, ?_⟩
  · exact (hfields ("spending", AvitoMetricsData.Spending) (by simp [aggregateFields])).2
      [] ⟨"spending", 500⟩ [⟨"impressions", 10⟩] rfl rfl (by decide)
  · exact (hfields ("impressions", AvitoMetricsData.Impressions) (by simp [aggregateFields])).2
      [⟨"spending", 500⟩] ⟨"impressions", 10⟩ [] rfl rfl (by decide)
  · exact (hfields ("contacts", AvitoMetricsData.Contacts) (by simp [aggregateFields])).1
      (by decide)
  · exact (hfields ("views", AvitoMetricsData.Views) (by simp [aggregateFields])).1
      (by decide)

/-! ## Snapshot transpose -/

/-- The transpose has as many rows as the first input row has cells. -/
theorem transpose_length (first : List Cell) (rest : List (List Cell)) :
    (transpose (first :: rest)).length = first.length := by
  simp [transpose]

/-- For a column index within the first row, output row `i` has one cell per input row,
and its cell `j` is cell `i` of input row `j`, or the empty string when that row is too
short. -/
theorem transpose_cell (values : List (List Cell)) (first : List Cell)
    (rest : List (List Cell)) (hv : values = first :: rest) (i j : Nat)
    (hi : i < first.length) (hj : j < values.length) :
    ∃ row, (transpose values)[i]? = some row ∧ row.length = values.length ∧
      row[j]? = some (if h : i < values[j].length then values[j][i] else Cell.str "") := by
  subst hv
  refine ⟨(first :: rest).map fun row => if h : i < row.length then row[i] else Cell.str "",
    ?_, by simp, ?_⟩
  · simp [transpose, hi]
  · rw [List.getElem?_map, List.getElem?_eq_getElem hj]
    rfl

/-- Claim C10, the code at the failing input: the number of output rows is the length
of the first input row, so the cells of a later, longer row are dropped.
`[[1,2],[3,4,5]]` transposes to `[[1,3],[2,4]]` and the cell `5` is lost, and
`[[],[5]]` transposes to nothing; the sample `[[1,2,3],[4,5]]` of the claim, whose
first row is the longest, transposes to `[[1,4],[2,5],[3,""]]`. -/
theorem transpose_drops_long_rows :
    transpose [[Cell.num 1, Cell.num 2], [Cell.num 3, Cell.num 4, Cell.num 5]] =
      [[Cell.num 1, Cell.num 3], [Cell.num 2, Cell.num 4]] ∧
    transpose [[], [Cell.num 5]] = [] ∧
    transpose [[Cell.num 1, Cell.num 2, Cell.num 3], [Cell.num 4, Cell.num 5]] =
      [[Cell.num 1, Cell.num 4], [Cell.num 2, Cell.num 5], [Cell.num 3, Cell.str ""]] := by
  decide

/-! ## Cycle runner -/

/-- One step of the cycle when the fetch fails. -/
theorem ProcessAllShops_cons_error {σ : Type} (w : Worker σ) (shop : Shop) (rest : List Shop)
    (s s1 : σ) (err : Error)
    (h : w.GetAvitoMetrics shop.UserId shop.ClientId shop.ClientSecret s =
      (Except.error err, s1)) :
    ProcessAllShops w (shop :: rest) s =
      (Event.fetch shop (Except.error err) :: (ProcessAllShops w rest s1).1,
       (ProcessAllShops w rest s1).2) := by
  simp [ProcessAllShops, h]

/-- One step of the cycle when the fetch succeeds. -/
theorem ProcessAllShops_cons_ok {σ : Type} (w : Worker σ) (shop : Shop) (rest : List Shop)
    (s s1 : σ) (metrics : AvitoMetricsData)
    (h : w.GetAvitoMetrics shop.UserId shop.ClientId shop.ClientSecret s =
      (Except.ok metrics, s1)) :
    ProcessAllShops w (shop :: rest) s =
      (Event.fetch shop (Except.ok metrics) ::
        Event.write shop.Name metrics (w.UpdateSheet shop.Name metrics s1).1 ::
        Event.sleep (65 * Second) ::
        (ProcessAllShops w rest
          (w.Sleep (65 * Second) (w.UpdateSheet shop.Name metrics s1).2)).1,
       (ProcessAllShops w rest
          (w.Sleep (65 * Second) (w.UpdateSheet shop.Name metrics s1).2)).2) := by
  simp [ProcessAllShops, h]

/-- A fetch either fails or succeeds. -/
theorem fetch_cases {σ : Type} (w : Worker σ) (shop : Shop) (s : σ) :
    (∃ err s1, w.GetAvitoMetrics shop.UserId shop.ClientId shop.ClientSecret s =
        (Except.error err, s1)) ∨
    (∃ metrics s1, w.GetAvitoMetrics shop.UserId shop.ClientId shop.ClientSecret s =
        (Except.ok metrics, s1)) := by
  rcases h : w.GetAvitoMetrics shop.UserId shop.ClientId shop.ClientSecret s with ⟨r, s1⟩
  cases r with
  | error err => exact Or.inl ⟨err, s1, rfl⟩
  | ok metrics => exact Or.inr ⟨metrics, s1, rfl⟩

/-- A cycle fetches every shop once, in order. -/
theorem ProcessAllShops_fetchedShops {σ : Type} (w : Worker σ) :
    ∀ (shops : List Shop) (s : σ), fetchedShops (ProcessAllShops w shops s).1 = shops := by
  intro shops
  induction shops with
  | nil => intro s; rfl
  | cons shop rest ih =>
    intro s
    rcases fetch_cases w shop s with ⟨err, s1, h⟩ | ⟨metrics, s1, h⟩
    · rw [ProcessAllShops_cons_error w shop rest s s1 err h]
      simp [fetchedShops, ih]
    · rw [ProcessAllShops_cons_ok w shop rest s s1 metrics h]
      simp [fetchedShops, ih]

/-- A cycle attempts a write exactly for the fetches that succeeded. -/
theorem ProcessAllShops_writes {σ : Type} (w : Worker σ) :
    ∀ (shops : List Shop) (s : σ),
      writesAttempted (ProcessAllShops w shops s).1 =
        successfulFetches (ProcessAllShops w shops s).1 := by
  intro shops
  induction shops with
  | nil => intro s; rfl
  | cons shop rest ih =>
    intro s
    rcases fetch_cases w shop s with ⟨err, s1, h⟩ | ⟨metrics, s1, h⟩
    · rw [ProcessAllShops_cons_error w shop rest s s1 err h]
      simp [writesAttempted, successfulFetches, ih]
    · rw [ProcessAllShops_cons_ok w shop rest s s1 metrics h]
      simp [writesAttempted, successfulFetches, ih]

/-- Under a per-shop fetch oracle the writes are those owed to the shops in order. -/
theorem ProcessAllShops_writes_oracle {σ : Type} (w : Worker σ)
    (fetch : Shop → Except Error AvitoMetricsData)
    (hfetch : ∀ shop st,
      (w.GetAvitoMetrics shop.UserId shop.ClientId shop.ClientSecret st).1 = fetch shop) :
    ∀ (shops : List Shop) (s : σ),
      writesAttempted (ProcessAllShops w shops s).1 = shops.filterMap (writeOfFetch fetch) := by
  intro shops
  induction shops with
  | nil => intro s; rfl
  | cons shop rest ih =>
    intro s
    rcases fetch_cases w shop s with ⟨err, s1, h⟩ | ⟨metrics, s1, h⟩
    · rw [ProcessAllShops_cons_error w shop rest s s1 err h]
      have hf : fetch shop = Except.error err := by rw [← hfetch shop s, h]
      simp [writesAttempted, ih, List.filterMap_cons, writeOfFetch, hf]
    · rw [ProcessAllShops_cons_ok w shop rest s s1 metrics h]
      have hf : fetch shop = Except.ok metrics := by rw [← hfetch shop s, h]
      simp [writesAttempted, ih, List.filterMap_cons, writeOfFetch, hf]

/-- Claim C11: for every shop list, every behaviour of the collaborators and every
state, the cycle fetches the aggregate metrics of every configured shop exactly once,
in config order, and attempts a write exactly for the fetches that succeeded, in order,
each with that shop's name and the fetched metrics; when the fetch outcome is given by
a per-shop oracle, the writes are those of the shops whose oracle fetch succeeds. A
failed fetch or write never stops the later shops (the cycle is a total function of the
whole list). -/
theorem failure_isolation {σ : Type} (w : Worker σ) (shops : List Shop) (s : σ) :
    fetchedShops (ProcessAllShops w shops s).1 = shops ∧
    writesAttempted (ProcessAllShops w shops s).1 =
      successfulFetches (ProcessAllShops w shops s).1 ∧
    (∀ fetch : Shop → Except Error AvitoMetricsData,
      (∀ shop st,
        (w.GetAvitoMetrics shop.UserId shop.ClientId shop.ClientSecret st).1 = fetch shop) →
      writesAttempted (ProcessAllShops w shops s).1 =
        shops.filterMap (writeOfFetch fetch)) :=
  ⟨ProcessAllShops_fetchedShops w shops s, ProcessAllShops_writes w shops s,
    fun fetch hfetch => ProcessAllShops_writes_oracle w fetch hfetch shops s⟩

/-- Claim C11 at shops `[A, B]` where the metrics call of `B` gets a 500: both shops
are fetched, exactly one write is attempted, for `A`, and the sink receives exactly one
update, on the range of `A`. -/
theorem failure_isolation_witness :
    fetchedShops (ProcessAllShops (liveWorker (configOf [shopA, shopB]) upstreamBDown)
      [shopA, shopB] freshWorld).1 = [shopA, shopB] ∧
    writesAttempted (ProcessAllShops (liveWorker (configOf [shopA, shopB]) upstreamBDown)
      [shopA, shopB] freshWorld).1 = [("A", totalsData)] ∧
    (ProcessAllShops (liveWorker (configOf [shopA, shopB]) upstreamBDown)
      [shopA, shopB] freshWorld).2.sinkCalls =
      [⟨"Sheet1!B2:B5", [[Cell.num 5], [Cell.num 10], [Cell.num 0], [Cell.num 0]]⟩] :=
  have h := failure_isolation (liveWorker (configOf [shopA, shopB]) upstreamBDown)
    [shopA, shopB] freshWorld
  ⟨h.1, h.2.1.trans rfl, rfl⟩

/-- Every pause of a cycle lasts 65 seconds. -/
theorem ProcessAllShops_pause_length {σ : Type} (w : Worker σ) :
    ∀ (shops : List Shop) (s : σ), ∀ d ∈ pauses (ProcessAllShops w shops s).1,
      d = 65 * Second := by
  intro shops
  induction shops with
  | nil => intro s d hd; simp [ProcessAllShops, pauses] at hd
  | cons shop rest ih =>
    intro s d hd
    rcases fetch_cases w shop s with ⟨err, s1, h⟩ | ⟨metrics, s1, h⟩
    · rw [ProcessAllShops_cons_error w shop rest s s1 err h] at hd
      exact ih s1 d (by simpa [pauses] using hd)
    · rw [ProcessAllShops_cons_ok w shop rest s s1 metrics h] at hd
      simp only [pauses, List.mem_cons] at hd
      rcases hd with rfl | hd
      · rfl
      · exact ih _ d hd

/-- A cycle pauses once per successful fetch. -/
theorem ProcessAllShops_pause_count {σ : Type} (w : Worker σ) :
    ∀ (shops : List Shop) (s : σ),
      (pauses (ProcessAllShops w shops s).1).length =
        (successfulFetches (ProcessAllShops w shops s).1).length := by
  intro shops
  induction shops with
  | nil => intro s; rfl
  | cons shop rest ih =>
    intro s
    rcases fetch_cases w shop s with ⟨err, s1, h⟩ | ⟨metrics, s1, h⟩
    · rw [ProcessAllShops_cons_error w shop rest s s1 err h]
      simp [pauses, successfulFetches, ih]
    · rw [ProcessAllShops_cons_ok w shop rest s s1 metrics h]
      simp [pauses, successfulFetches, ih]

/-- When every fetch succeeds, a cycle pauses once per shop. -/
theorem ProcessAllShops_pauses_all_ok {σ : Type} (w : Worker σ) :
    ∀ (shops : List Shop) (s : σ), allFetchesSucceeded (ProcessAllShops w shops s).1 = true →
      pauses (ProcessAllShops w shops s).1 = List.replicate shops.length (65 * Second) := by
  intro shops
  induction shops with
  | nil => intro s _; rfl
  | cons shop rest ih =>
    intro s hall
    rcases fetch_cases w shop s with ⟨err, s1, h⟩ | ⟨metrics, s1, h⟩
    · rw [ProcessAllShops_cons_error w shop rest s s1 err h] at hall
      simp [allFetchesSucceeded] at hall
    · rw [ProcessAllShops_cons_ok w shop rest s s1 metrics h] at hall ⊢
      simp only [allFetchesSucceeded] at hall
      simp only [pauses, List.length_cons, List.replicate_succ]
      rw [ih _ hall]

/-- In a cycle, a successful fetch is followed at once by the write for that shop and
then by a pause of 65 seconds. -/
theorem ProcessAllShops_after_fetch {σ : Type} (w : Worker σ) :
    ∀ (shops : List Shop) (s : σ) (pre post : List Event) (shop : Shop)
      (metrics : AvitoMetricsData),
      (ProcessAllShops w shops s).1 = pre ++ Event.fetch shop (Except.ok metrics) :: post →
      ∃ err rest, post =
        Event.write shop.Name metrics err :: Event.sleep (65 * Second) :: rest := by
  intro shops
  induction shops with
  | nil =>
    intro s pre post shop metrics h
    simp [ProcessAllShops] at h
  | cons sh rest ih =>
    intro s pre post shop metrics h
    rcases fetch_cases w sh s with ⟨err, s1, hf⟩ | ⟨m, s1, hf⟩
    · rw [ProcessAllShops_cons_error w sh rest s s1 err hf] at h
      cases pre with
      | nil => simp at h
      | cons e pre' =>
        simp only [List.cons_append, List.cons.injEq] at h
        exact ih s1 pre' post shop metrics h.2
    · rw [ProcessAllShops_cons_ok w sh rest s s1 m hf] at h
      cases pre with
      | nil =>
        simp only [List.nil_append, List.cons.injEq, Event.fetch.injEq, Except.ok.injEq] at h
        obtain ⟨⟨rfl, rfl⟩, hpost⟩ := h
        exact ⟨_, _, hpost.symm⟩
      | cons e1 pre1 =>
        simp only [List.cons_append, List.cons.injEq] at h
        cases pre1 with
        | nil => simp at h
        | cons e2 pre2 =>
          simp only [List.cons_append, List.cons.injEq] at h
          cases pre2 with
          | nil => simp at h
          | cons e3 pre3 =>
            simp only [List.cons_append, List.cons.injEq] at h
            exact ih _ pre3 post shop metrics h.2.2.2

/-- Claim C12, as the code has it: the pause is the last statement of the loop body, so
it also follows the last shop, and it is skipped when the fetch fails. A cycle over the
single shop `A` pauses once (the claim has `n - 1 = 0` pauses); in a cycle over `[A, B]`
where the fetch of `A` fails, the fetch of `B` follows at once, with no pause between the
two fetches. -/
theorem inter_shop_pause_counterexample :
    (pauses (ProcessAllShops (liveWorker (configOf [shopA]) upstreamAllUp) [shopA]
        freshWorld).1 = [65 * Second] ∧ [shopA].length - 1 = 0) ∧
    (ProcessAllShops (liveWorker (configOf [shopA, shopB]) upstreamADown) [shopA, shopB]
        freshWorld).1 =
      [Event.fetch shopA (Except.error (Error.badStatus "500 Internal Server Error")),
       Event.fetch shopB (Except.ok totalsData),
       Event.write "B" totalsData none,
       Event.sleep (65 * Second)] :=
  ⟨⟨rfl, rfl⟩, rfl⟩

/-- Claim C12, amended: in the trace of one cycle every pause lasts 65 seconds; every
fetch that succeeded is followed at once by the write for that shop and then, whether
or not the write failed and also for the last shop, by a pause of 65 seconds; so when
every fetch succeeds, a cycle over `n` shops performs exactly `n` pauses, of
`65 * n` seconds in total, and no two fetches happen without a pause between them. -/
theorem inter_shop_pause {σ : Type} (w : Worker σ) (shops : List Shop) (s : σ) :
    (∀ d ∈ pauses (ProcessAllShops w shops s).1, d = 65 * Second) ∧
    (∀ (pre post : List Event) (shop : Shop) (metrics : AvitoMetricsData),
      (ProcessAllShops w shops s).1 = pre ++ Event.fetch shop (Except.ok metrics) :: post →
      ∃ err rest, post =
        Event.write shop.Name metrics err :: Event.sleep (65 * Second) :: rest) ∧
    (allFetchesSucceeded (ProcessAllShops w shops s).1 = true →
      (pauses (ProcessAllShops w shops s).1).length = shops.length ∧
      (pauses (ProcessAllShops w shops s).1).sum = 65 * Second * shops.length) := by
  refine ⟨ProcessAllShops_pause_length w shops s,
    fun pre post shop metrics h => ProcessAllShops_after_fetch w shops s pre post shop metrics h,
    ?_⟩
  intro hall
  rw [ProcessAllShops_pauses_all_ok w shops s hall]
  constructor
  · simp
  · simp only [List.sum_replicate, nsmul_eq_mul]
    ring

/-- Claim C12, amended, at shops `[A, B]` that are both served: two pauses, 130 seconds
in total. -/
theorem inter_shop_pause_witness :
    allFetchesSucceeded (ProcessAllShops (liveWorker (configOf [shopA, shopB]) upstreamAllUp)
      [shopA, shopB] freshWorld).1 = true ∧
    (pauses (ProcessAllShops (liveWorker (configOf [shopA, shopB]) upstreamAllUp)
      [shopA, shopB] freshWorld).1).length = 2 ∧
    (pauses (ProcessAllShops (liveWorker (configOf [shopA, shopB]) upstreamAllUp)
      [shopA, shopB] freshWorld).1).sum = 65 * Second * 2 :=
  have h := (inter_shop_pause (liveWorker (configOf [shopA, shopB]) upstreamAllUp)
    [shopA, shopB] freshWorld).2.2 rfl
  ⟨rfl, h.1, h.2⟩

/-! ## Reporting repository -/

/-- No shop of the name: the lookup yields the empty range. -/
theorem findSheetRange_none (shops : List Shop) (shopName : String)
    (h : ∀ shop ∈ shops, shop.Name ≠ shopName) : findSheetRange shops shopName = "" := by
  induction shops with
  | nil => rfl
  | cons shop rest ih =>
    have hs : shop.Name ≠ shopName := h shop (by simp)
    simp only [findSheetRange, hs, ↓reduceIte]
    exact ih (fun sh hsh => h sh (List.mem_cons_of_mem _ hsh))

/-- The lookup yields the range of the first shop of the name. -/
theorem findSheetRange_first (pre post : List Shop) (shop : Shop) (shopName : String)
    (hname : shop.Name = shopName) (hpre : ∀ sh ∈ pre, sh.Name ≠ shopName) :
    findSheetRange (pre ++ shop :: post) shopName = shop.SheetRange := by
  induction pre with
  | nil => simp [findSheetRange, hname]
  | cons sh rest ih =>
    have hs : sh.Name ≠ shopName := hpre sh (by simp)
    simp only [List.cons_append, findSheetRange, hs, ↓reduceIte]
    exact ih (fun x hx => hpre x (List.mem_cons_of_mem _ hx))

/-- `UpdateGoogleSheet` on an empty resolved range. -/
theorem UpdateGoogleSheet_empty (cfg : Config)
    (sheetsApi : String → List (List Cell) → Option String) (shopName : String)
    (data : AvitoMetricsData) (h : findSheetRange cfg.Shops shopName = "") :
    UpdateGoogleSheet cfg sheetsApi shopName data =
      (some (SinkError.rangeNotFound shopName), []) := by
  simp [UpdateGoogleSheet, h]

/-- `UpdateGoogleSheet` on a non-empty resolved range. -/
theorem UpdateGoogleSheet_resolved (cfg : Config)
    (sheetsApi : String → List (List Cell) → Option String) (shopName : String)
    (data : AvitoMetricsData) (h : findSheetRange cfg.Shops shopName ≠ "") :
    UpdateGoogleSheet cfg sheetsApi shopName data =
      ((Client.UpdateSheet sheetsApi (findSheetRange cfg.Shops shopName)
          (totalsBlock data)).map SinkError.unableToWrite,
       [⟨findSheetRange cfg.Shops shopName, totalsBlock data⟩]) := by
  simp only [UpdateGoogleSheet, h, ↓reduceIte]
  cases Client.UpdateSheet sheetsApi (findSheetRange cfg.Shops shopName) (totalsBlock data) <;>
    rfl

/-- Claim C13, as the code has it: the error is decided by the resolved range being
empty, not by the name being unknown. A configured shop `C` with an empty sheet range
gets the range-not-found error and no sink call; and of two configured shops named `A`
the second resolves to the range of the first. -/
theorem shop_resolution_counterexample :
    (shopNoRange ∈ (configOf [shopA, shopNoRange]).Shops ∧ shopNoRange.Name = "C" ∧
      UpdateGoogleSheet (configOf [shopA, shopNoRange]) sheetsUp "C" totalsData =
        (some (SinkError.rangeNotFound "C"), [])) ∧
    (shopATwin ∈ (configOf [shopA, shopATwin]).Shops ∧ shopATwin.Name = "A" ∧
      shopATwin.SheetRange = "Sheet1!D2:D5" ∧
      UpdateGoogleSheet (configOf [shopA, shopATwin]) sheetsUp "A" totalsData =
        (none, [⟨"Sheet1!B2:B5",
          [[Cell.num 5], [Cell.num 10], [Cell.num 0], [Cell.num 0]]⟩])) := by
  decide

/-- Claim C13, amended: `UpdateGoogleSheet` returns the range-not-found configuration
error if and only if the range it resolves for the shop name is empty, and then it
makes no sink call; the resolved range is empty when no configured shop has the name,
and is the configured sheet range of the first configured shop with the name
otherwise. When the resolved range is not empty, it delegates exactly one single-range
update of the 4-row single-column block `[spending/100, impressions, views, contacts]`
(integer division) to the sink with that range, and returns the wrapped error of the
sink, if any. -/
theorem shop_resolution (cfg : Config) (sheetsApi : String → List (List Cell) → Option String)
    (shopName : String) (data : AvitoMetricsData) :
    ((UpdateGoogleSheet cfg sheetsApi shopName data).1 =
        some (SinkError.rangeNotFound shopName) ↔
      findSheetRange cfg.Shops shopName = "") ∧
    (findSheetRange cfg.Shops shopName = "" →
      (UpdateGoogleSheet cfg sheetsApi shopName data).2 = []) ∧
    (findSheetRange cfg.Shops shopName ≠ "" →
      (UpdateGoogleSheet cfg sheetsApi shopName data).2 =
        [⟨findSheetRange cfg.Shops shopName,
          [[Cell.num (Int.tdiv data.Spending 100)], [Cell.num data.Impressions],
           [Cell.num data.Views], [Cell.num data.Contacts]]⟩] ∧
      (UpdateGoogleSheet cfg sheetsApi shopName data).1 =
        (Client.UpdateSheet sheetsApi (findSheetRange cfg.Shops shopName)
          (totalsBlock data)).map SinkError.unableToWrite) ∧
    ((∀ shop ∈ cfg.Shops, shop.Name ≠ shopName) → findSheetRange cfg.Shops shopName = "") ∧
    (∀ (pre post : List Shop) (shop : Shop), cfg.Shops = pre ++ shop :: post →
      shop.Name = shopName → (∀ sh ∈ pre, sh.Name ≠ shopName) →
      findSheetRange cfg.Shops shopName = shop.SheetRange) := by
  refine ⟨?_, ?_, ?_, ?_, ?_⟩
  · constructor
    · intro h
      by_contra hne
      rw [UpdateGoogleSheet_resolved cfg sheetsApi shopName data hne] at h
      cases hc : Client.UpdateSheet sheetsApi (findSheetRange cfg.Shops shopName)
          (totalsBlock data) with
      | none => simp [hc] at h
      | some e => simp [hc] at h
    · intro h
      rw [UpdateGoogleSheet_empty cfg sheetsApi shopName data h]
  · intro h
    rw [UpdateGoogleSheet_empty cfg sheetsApi shopName data h]
  · intro h
    rw [UpdateGoogleSheet_resolved cfg sheetsApi shopName data h]
    exact ⟨rfl, rfl⟩
  · exact findSheetRange_none cfg.Shops shopName
  · intro pre post shop hcfg hname hpre
    rw [hcfg]
    exact findSheetRange_first pre post shop shopName hname hpre

/-- Claim C13, amended, at the configuration `[A, B]`: the name `B` resolves to the
range of `B` and one update is delegated; the unknown name `Z` gets the error and no
sink call. -/
theorem shop_resolution_witness :
    (UpdateGoogleSheet (configOf [shopA, shopB]) sheetsUp "B" totalsData).1 = none ∧
    (UpdateGoogleSheet (configOf [shopA, shopB]) sheetsUp "B" totalsData).2 =
      [⟨"Sheet1!C2:C5", [[Cell.num 5], [Cell.num 10], [Cell.num 0], [Cell.num 0]]⟩] ∧
    (UpdateGoogleSheet (configOf [shopA, shopB]) sheetsUp "Z" totalsData).1 =
      some (SinkError.rangeNotFound "Z") ∧
    (UpdateGoogleSheet (configOf [shopA, shopB]) sheetsUp "Z" totalsData).2 = [] := by
  have hB := shop_resolution (configOf [shopA, shopB]) sheetsUp "B" totalsData
  have hZ := shop_resolution (configOf [shopA, shopB]) sheetsUp "Z" totalsData
  have hrB : findSheetRange (configOf [shopA, shopB]).Shops "B" = "Sheet1!C2:C5" :=
    hB.2.2.2.2 [shopA] [] shopB rfl rfl (by decide)
  have hrZ : findSheetRange (configOf [shopA, shopB]).Shops "Z" = "" :=
    hZ.2.2.2.1 (by decide)
  have hres := hB.2.2.1 (by rw [hrB]; decide)
  refine ⟨?_, ?_, hZ.1.2 hrZ, hZ.2.1 hrZ⟩
  · rw [hres.2]; rfl
  · rw [hres.1, hrB]; rfl

end AvitoTool
